import Mathlib

/-!
Verification development for the TerpTracker backend core
(multi-source merge + classification + effects pipeline).

Shallow embedding of `backend/app/utils/conversions.py`,
`backend/app/utils/normalization.py`, `backend/app/utils/merging.py`,
`backend/app/services/classifier.py`, `backend/app/services/effects_engine.py`
and the no-data check of `backend/app/services/analyzer.py`.

Modelling conventions:
* Python floats are modelled as ℚ (exact arithmetic).
* Python dicts are modelled as association lists (`List (String × ℚ)`),
  insertion-ordered, unique keys where the source guarantees it.
* Character classes (`str.isalnum`, `str.lower`, …) use ASCII semantics.
-/

namespace TerpTracker

/-! ### Character / string helpers (ASCII models of Python builtins) -/

/-- ASCII model of the per-character effect of Python `str.lower`. -/
def asciiLower (c : Char) : Char :=
  match c with
  | 'A' => 'a' | 'B' => 'b' | 'C' => 'c' | 'D' => 'd' | 'E' => 'e' | 'F' => 'f'
  | 'G' => 'g' | 'H' => 'h' | 'I' => 'i' | 'J' => 'j' | 'K' => 'k' | 'L' => 'l'
  | 'M' => 'm' | 'N' => 'n' | 'O' => 'o' | 'P' => 'p' | 'Q' => 'q' | 'R' => 'r'
  | 'S' => 's' | 'T' => 't' | 'U' => 'u' | 'V' => 'v' | 'W' => 'w' | 'X' => 'x'
  | 'Y' => 'y' | 'Z' => 'z' | c => c

/-- ASCII model of the per-character effect of Python `str.upper`. -/
def asciiUpper (c : Char) : Char :=
  match c with
  | 'a' => 'A' | 'b' => 'B' | 'c' => 'C' | 'd' => 'D' | 'e' => 'E' | 'f' => 'F'
  | 'g' => 'G' | 'h' => 'H' | 'i' => 'I' | 'j' => 'J' | 'k' => 'K' | 'l' => 'L'
  | 'm' => 'M' | 'n' => 'N' | 'o' => 'O' | 'p' => 'P' | 'q' => 'Q' | 'r' => 'R'
  | 's' => 'S' | 't' => 'T' | 'u' => 'U' | 'v' => 'V' | 'w' => 'W' | 'x' => 'X'
  | 'y' => 'Y' | 'z' => 'Z' | c => c

/-- Python `str.lower` on a character list (ASCII model). -/
def lowerL (cs : List Char) : List Char := cs.map asciiLower

/-- Trim whitespace from both ends of a character list (Python `str.strip`). -/
def stripL (cs : List Char) : List Char :=
  ((cs.dropWhile Char.isWhitespace).reverse.dropWhile Char.isWhitespace).reverse

/-! ### `app/utils/conversions.py` -/

/-- Numeric value of a decimal digit character. -/
def digitVal (c : Char) : ℕ := c.toNat - 48

/-- Value of a digit string read in base 10. -/
def digitsToNat (ds : List Char) : ℕ := ds.foldl (fun n c => 10 * n + digitVal c) 0

/-- Parse an unsigned decimal literal (`"12"`, `"12.5"`, `".5"`, `"5."`). -/
def parseUnsigned (cs : List Char) : Option ℚ :=
  let ip := cs.takeWhile Char.isDigit
  let rest := cs.dropWhile Char.isDigit
  match rest with
  | [] => if ip = [] then none else some (digitsToNat ip : ℚ)
  | '.' :: fp =>
      if fp.all Char.isDigit ∧ (ip ≠ [] ∨ fp ≠ []) then
        some ((digitsToNat ip : ℚ) + (digitsToNat fp : ℚ) / (10 : ℚ) ^ fp.length)
      else none
  | _ => none

/-- Model of Python `float(s)` restricted to plain decimal literals with an
optional sign (the only shapes lab values take); anything else fails like a
`ValueError`. -/
def pyFloat (cs : List Char) : Option ℚ :=
  match cs with
  | '-' :: rest => (parseUnsigned rest).map (fun q => -q)
  | '+' :: rest => parseUnsigned rest
  | rest => parseUnsigned rest

/-- The sentinel tuple of `safe_float`
(`'', 'nan', 'none', 'null', 'nd', 'n/a', '<loq'`). -/
def sentinelStrings : List (List Char) :=
  [[], ['n', 'a', 'n'], ['n', 'o', 'n', 'e'], ['n', 'u', 'l', 'l'],
   ['n', 'd'], ['n', '/', 'a'], ['<', 'l', 'o', 'q']]

/-- `safe_float` from `conversions.py`: strip, reject sentinels, parse,
keep only strictly positive results.  The Python parameter is `Any`; the
model covers string inputs (numbers pass through `str(value)` first). -/
def safe_float (value : String) : Option ℚ :=
  if stripL value.toList = [] ∨ lowerL (stripL value.toList) ∈ sentinelStrings then
    none
  else
    match pyFloat (stripL value.toList) with
    | none => none
    | some r => if 0 < r then some r else none

/-- `safe_terpene_value` from `conversions.py` (the spec's `parse_fraction`):
values above 1 are treated as percentages and divided by 100. -/
def safe_terpene_value (value : String) : Option ℚ :=
  match safe_float value with
  | none => none
  | some p => if 1 < p then some (p / 100) else some p

/-! ### `app/core/constants.py` and `app/utils/normalization.py` -/

/-- `STRAIN_NAME_SUFFIXES` from `app/core/constants.py`. -/
def STRAIN_NAME_SUFFIXES : List (List Char) :=
  [['f', 'l', 'o', 'w', 'e', 'r'], ['b', 'u', 'd'],
   ['s', 't', 'r', 'a', 'i', 'n'], ['c', 'a', 'n', 'n', 'a', 'b', 'i', 's'],
   ['i', 'n', 'd', 'i', 'c', 'a'], ['s', 'a', 't', 'i', 'v', 'a'],
   ['h', 'y', 'b', 'r', 'i', 'd'],
   ['c', 'o', 'n', 'c', 'e', 'n', 't', 'r', 'a', 't', 'e'],
   ['e', 'x', 't', 'r', 'a', 'c', 't'], ['r', 'o', 's', 'i', 'n']]

/-- Python `s.replace(pat, '')` for a nonempty pattern: delete every
non-overlapping occurrence, scanning left to right. -/
def replaceAll (pat : List Char) : List Char → List Char
  | [] => []
  | c :: rest =>
    if pat ≠ [] ∧ pat.isPrefixOf (c :: rest) then
      replaceAll pat (List.drop (pat.length - 1) rest)
    else
      c :: replaceAll pat rest
  termination_by cs => cs.length
  decreasing_by
  · simp
    omega
  · simp

/-- The suffix-removal loop of `normalize_strain_name`:
`name.replace(f' {suffix}', '').replace(f'{suffix} ', '')` for each suffix. -/
def removeSuffixes (cs : List Char) : List Char :=
  STRAIN_NAME_SUFFIXES.foldl
    (fun acc suf => replaceAll (suf ++ [' ']) (replaceAll (' ' :: suf) acc)) cs

/-- The character-cleaning step: keep alphanumeric and whitespace characters,
replace everything else with a space (ASCII model of `isalnum`/`isspace`). -/
def cleanChars (cs : List Char) : List Char :=
  cs.map (fun c => if c.isAlphanum || c.isWhitespace then c else ' ')

/-- Worker for `splitWords`; `acc` holds the current word reversed. -/
def splitWordsAux : List Char → List Char → List (List Char)
  | [], acc => if acc = [] then [] else [acc.reverse]
  | c :: cs, acc =>
    if c.isWhitespace then
      if acc = [] then splitWordsAux cs []
      else acc.reverse :: splitWordsAux cs []
    else splitWordsAux cs (c :: acc)

/-- Python `str.split()`: split on whitespace runs, dropping empty words. -/
def splitWords (cs : List Char) : List (List Char) := splitWordsAux cs []

/-- Python `' '.join(words)`. -/
def joinWords : List (List Char) → List Char
  | [] => []
  | [w] => w
  | w :: ws => w ++ ' ' :: joinWords ws

/-- Python `str.title` (ASCII model): a letter is uppercased when the
previous character is not a letter, lowercased otherwise. -/
def pyTitleAux : Bool → List Char → List Char
  | _, [] => []
  | prevAlpha, c :: cs =>
    (if c.isAlpha then (if prevAlpha then asciiLower c else asciiUpper c) else c)
      :: pyTitleAux c.isAlpha cs

/-- Python `str.title` on a whole string. -/
def pyTitle (cs : List Char) : List Char := pyTitleAux false cs

/-- `normalize_strain_name` from `app/utils/normalization.py`:
lowercase, remove suffixes, clean special characters, collapse whitespace,
strip, optionally title-case. -/
def normalize_strain_name (name : String) (title_case : Bool := false) : String :=
  let cs := stripL (joinWords (splitWords (cleanChars (removeSuffixes (lowerL name.toList)))))
  if title_case then (pyTitle cs).asString else cs.asString

/-- The same pipeline with the suffix-removal step skipped: used to state
that suffix removal only acts when a space-adjacent suffix occurrence is
present in the lowercased input. -/
def normalize_no_suffix (name : String) : String :=
  (stripL (joinWords (splitWords (cleanChars (lowerL name.toList))))).asString

/-- Decidable infix test used to state when `replaceAll` is a no-op. -/
def containsPat (pat : List Char) : List Char → Bool
  | [] => pat.isPrefixOf []
  | c :: rest => pat.isPrefixOf (c :: rest) || containsPat pat rest

/-- No suffix of `STRAIN_NAME_SUFFIXES` occurs space-adjacent in `cs`. -/
def noSuffixOccurrence (cs : List Char) : Bool :=
  STRAIN_NAME_SUFFIXES.all
    (fun suf => !containsPat (' ' :: suf) cs && !containsPat (suf ++ [' ']) cs)

/-- Tail checker for `wellFormed`: scans the remainder of a string that is
currently inside a word. -/
def wfRest : List Char → Bool
  | [] => true
  | c :: cs =>
    if c.isAlphanum then wfRest cs
    else if c = ' ' then
      match cs with
      | [] => false
      | d :: ds => d.isAlphanum && wfRest ds
    else false

/-- Shape of a normalized name: alphanumeric words separated by single
spaces, no leading/trailing whitespace, possibly empty. -/
def wellFormed : List Char → Bool
  | [] => true
  | c :: cs => c.isAlphanum && wfRest cs

/-! ### `app/models/schemas.py` (`Totals`) and `app/utils/merging.py` -/

/-- The 17 cannabinoid field names of `Totals` (`schemas.py`), accessed
dynamically via `getattr`/`setattr` in `merging.py`; modelled as an enum. -/
inductive CannField
  | total_terpenes | thc | thca | thcv | cbd | cbda | cbdv
  | cbn | cbg | cbgm | cbgv | cbc | cbcv | cbv | cbe | cbt | cbl
deriving DecidableEq

/-- `Totals`: every field is `Optional[float]` (default `None`); modelled as
a function from field names, mirroring the `getattr` access in the source. -/
def Totals : Type := CannField → Option ℚ

/-- The all-`None` default `Totals()`. -/
def Totals.mk0 : Totals := fun _ => none

/-- `setattr(t, f, v)`. -/
def Totals.set (t : Totals) (f : CannField) (v : ℚ) : Totals :=
  fun g => if g = f then some v else t g

/-- The `cannabinoid_fields` list of `merge_cannabinoid_data` (source order). -/
def cannabinoidFields : List CannField :=
  [.total_terpenes, .thc, .thca, .thcv, .cbd, .cbda, .cbdv,
   .cbn, .cbg, .cbgm, .cbgv, .cbc, .cbcv, .cbv, .cbe, .cbt, .cbl]

/-- A Python `Dict[str, float]` as an insertion-ordered association list. -/
abbrev TerpMap := List (String × ℚ)

/-- Dict lookup: `d[k]` when `k in d`, else `None`. -/
def tdLookup : TerpMap → String → Option ℚ
  | [], _ => none
  | (k0, v) :: rest, k => if k0 = k then some v else tdLookup rest k

/-- The keys of a dict. -/
def keysOf (d : TerpMap) : List String := d.map (fun kv => kv.1)

/-- `set.add` followed by the eventual `list(...)`: insertion-ordered,
duplicate-free accumulation of source names. -/
def insertName (l : List String) (n : String) : List String :=
  if n ∈ l then l else l ++ [n]

/-- The priority-ordered source list
`[('coa', …), ('page', …), ('database', …), ('api', …)]`. -/
def terpSources (coa page db api : TerpMap) : List (String × TerpMap) :=
  [("coa", coa), ("page", page), ("database", db), ("api", api)]

/-- Inner loop of `merge_terpene_data`: the first source, in priority order,
holding key `k` with a strictly positive value, together with that value. -/
def firstPosTerp : List (String × TerpMap) → String → Option (String × ℚ)
  | [], _ => none
  | (n, d) :: rest, k =>
    match tdLookup d k with
    | some v => if 0 < v then some (n, v) else firstPosTerp rest k
    | none => firstPosTerp rest k

/-- Body of the outer `for key in all_keys` loop of `merge_terpene_data`:
take the first positive source for the key, record value and source. -/
def mergeTerpStep (sources : List (String × TerpMap))
    (acc : TerpMap × List String) (k : String) : TerpMap × List String :=
  match firstPosTerp sources k with
  | some nv => (acc.1 ++ [(k, nv.2)], insertName acc.2 nv.1)
  | none => acc

/-- `merge_terpene_data` from `app/utils/merging.py`.  The Python `all_keys`
set is modelled as the deduplicated concatenation of the four key lists. -/
def merge_terpene_data (coa page db api : TerpMap) : TerpMap × List String :=
  ((keysOf coa ++ keysOf page ++ keysOf db ++ keysOf api).dedup).foldl
    (mergeTerpStep (terpSources coa page db api)) ([], [])

/-- The priority-ordered cannabinoid source list. -/
def cannSources (coa page db api : Totals) : List (String × Totals) :=
  [("coa", coa), ("page", page), ("database", db), ("api", api)]

/-- Inner loop of `merge_cannabinoid_data` (`getattr` plus positivity test,
with the early `break`). -/
def firstPosCann : List (String × Totals) → CannField → Option (String × ℚ)
  | [], _ => none
  | (n, t) :: rest, f =>
    match t f with
    | some v => if 0 < v then some (n, v) else firstPosCann rest f
    | none => firstPosCann rest f

/-- Body of the `for field in cannabinoid_fields` loop of
`merge_cannabinoid_data`. -/
def mergeCannStep (sources : List (String × Totals))
    (acc : Totals × List String) (f : CannField) : Totals × List String :=
  match firstPosCann sources f with
  | some nv => (acc.1.set f nv.2, insertName acc.2 nv.1)
  | none => acc

/-- `merge_cannabinoid_data` from `app/utils/merging.py`.  The Python
`if totals_obj:` guard is always true for a pydantic model and is dropped. -/
def merge_cannabinoid_data (coa page db api : Totals) : Totals × List String :=
  cannabinoidFields.foldl (mergeCannStep (cannSources coa page db api))
    (Totals.mk0, [])

/-! ### `app/services/analyzer.py` — the no-data check (lines 264–271) -/

/-- Python truthiness of an `Optional[float]` (`None` and `0.0` are falsy). -/
def pyTruthy : Option ℚ → Bool
  | none => false
  | some x => decide (x ≠ 0)

/-- `has_cannabinoids = any([merged_totals.thc, merged_totals.thca,
merged_totals.cbd, merged_totals.cbda, merged_totals.cbn, merged_totals.cbg,
merged_totals.cbc])` from `analyze_url`. -/
def has_cannabinoids_check (t : Totals) : Bool :=
  pyTruthy (t CannField.thc) || pyTruthy (t CannField.thca) ||
  pyTruthy (t CannField.cbd) || pyTruthy (t CannField.cbda) ||
  pyTruthy (t CannField.cbn) || pyTruthy (t CannField.cbg) ||
  pyTruthy (t CannField.cbc)

/-- The no-data condition of `analyze_url`:
`if not has_terpenes and not has_cannabinoids: raise ValueError(...)`,
where `has_terpenes = bool(merged_terpenes)`. -/
def noDataError (merged_terpenes : TerpMap) (merged_totals : Totals) : Bool :=
  !(decide (merged_terpenes ≠ [])) && !(has_cannabinoids_check merged_totals)

/-! ### `app/services/classifier.py` (thresholds from `app/core/constants.py`) -/

/-- `ORANGE_THRESHOLD = 0.35`. -/
def ORANGE_THRESHOLD : ℚ := 35 / 100

/-- `GREEN_THRESHOLD = 0.35`. -/
def GREEN_THRESHOLD : ℚ := 35 / 100

/-- `BLUE_THRESHOLD = 0.35`. -/
def BLUE_THRESHOLD : ℚ := 35 / 100

/-- `PURPLE_CARYOPHYLLENE_MIN = 0.30`. -/
def PURPLE_CARYOPHYLLENE_MIN : ℚ := 30 / 100

/-- `PURPLE_PINENE_MAX = 0.15`. -/
def PURPLE_PINENE_MAX : ℚ := 15 / 100

/-- `YELLOW_THRESHOLD = 0.30`. -/
def YELLOW_THRESHOLD : ℚ := 30 / 100

/-- `RED_BALANCED_MIN = 0.20`. -/
def RED_BALANCED_MIN : ℚ := 20 / 100

/-- `RED_PINENE_MAX = 0.15`. -/
def RED_PINENE_MAX : ℚ := 15 / 100

/-- `RED_HUMULENE_MAX = 0.15`. -/
def RED_HUMULENE_MAX : ℚ := 15 / 100

/-- `DOMINANCE_MARGIN = 0.10`. -/
def DOMINANCE_MARGIN : ℚ := 10 / 100

/-- Python `str.lower` on a whole `String`. -/
def lowerS (s : String) : String := (lowerL s.toList).asString

/-- The `key_mapping` dict inside `normalize_terpene_profile`. -/
def keyMapping : List (String × String) :=
  [("beta_myrcene", "myrcene"), ("β-myrcene", "myrcene"),
   ("d_limonene", "limonene"), ("d-limonene", "limonene"),
   ("beta_caryophyllene", "caryophyllene"), ("β-caryophyllene", "caryophyllene"),
   ("alpha_pinene", "alpha_pinene"), ("α-pinene", "alpha_pinene"),
   ("beta_pinene", "beta_pinene"), ("β-pinene", "beta_pinene"),
   ("beta_ocimene", "ocimene"), ("β-ocimene", "ocimene")]

/-- `key_mapping.get(k, k)`. -/
def kmLookup (k : String) : String :=
  ((keyMapping.find? (fun kv => kv.1 == k)).map (fun kv => kv.2)).getD k

/-- Python dict assignment `d[k] = v`: overwrite in place, else append. -/
def insertOrUpdate : TerpMap → String → ℚ → TerpMap
  | [], k, v => [(k, v)]
  | (k0, v0) :: rest, k, v =>
    if k0 = k then (k0, v) :: rest else (k0, v0) :: insertOrUpdate rest k v

/-- `sum(d.values())`. -/
def sumValues (d : TerpMap) : ℚ := d.foldl (fun s kv => s + kv.2) 0

/-- `normalize_terpene_profile` from `classifier.py`: canonicalize keys,
drop non-positive values, divide by the total when it is positive. -/
def normalize_terpene_profile (terpenes : TerpMap) : TerpMap :=
  let normalized := terpenes.foldl
    (fun acc kv =>
      if 0 < kv.2 then insertOrUpdate acc (kmLookup (lowerS kv.1)) kv.2 else acc)
    []
  let total := sumValues normalized
  if 0 < total then normalized.map (fun kv => (kv.1, kv.2 / total)) else normalized

/-- `terps.get(k, 0)`. -/
def dGet (d : TerpMap) (k : String) : ℚ := (tdLookup d k).getD 0

/-- `get_combined_pinene` from `classifier.py`. -/
def get_combined_pinene (terps : TerpMap) : ℚ :=
  dGet terps "alpha_pinene" + dGet terps "beta_pinene"

/-- `get_top_terpene` from `classifier.py`: Python `max` over `items()` by
value, returning the first maximal entry (`("", 0.0)` on an empty dict). -/
def get_top_terpene (terps : TerpMap) : String × ℚ :=
  match terps with
  | [] => ("", 0)
  | p :: rest => rest.foldl (fun best q => if best.2 < q.2 then q else best) p

/-- `is_within_range` from `classifier.py`.  Division by a zero average is
total in ℚ (Python would raise, but every call site guards `avg > 0`). -/
def is_within_range (values : List ℚ) (tolerance : ℚ := 3 / 20) : Bool :=
  if values = [] then false
  else
    values.all (fun v =>
      decide (|v - values.foldl (· + ·) 0 / values.length| /
        (values.foldl (· + ·) 0 / values.length) ≤ tolerance))

/-- `classify_terpene_profile` from `classifier.py`: the SDP decision tree. -/
def classify_terpene_profile (terpenes : TerpMap) : String :=
  let terps := normalize_terpene_profile terpenes
  if terps = [] then "BLUE"
  else
    let myrcene := dGet terps "myrcene"
    let limonene := dGet terps "limonene"
    let caryophyllene := dGet terps "caryophyllene"
    let terpinolene := dGet terps "terpinolene"
    let pinene_total := get_combined_pinene terps
    let humulene := dGet terps "humulene"
    let top := get_top_terpene terps
    if ORANGE_THRESHOLD ≤ terpinolene ∨
        (top.1 = "terpinolene" ∧ DOMINANCE_MARGIN ≤ top.2 - terpinolene) then "ORANGE"
    else if GREEN_THRESHOLD ≤ pinene_total ∨
        ((top.1 = "alpha_pinene" ∨ top.1 = "beta_pinene") ∧ DOMINANCE_MARGIN ≤ top.2) then "GREEN"
    else if BLUE_THRESHOLD ≤ myrcene ∨
        (top.1 = "myrcene" ∧ DOMINANCE_MARGIN ≤ top.2 - myrcene) then "BLUE"
    else if RED_BALANCED_MIN ≤ myrcene ∧ RED_BALANCED_MIN ≤ limonene ∧
        RED_BALANCED_MIN ≤ caryophyllene ∧
        is_within_range [myrcene, limonene, caryophyllene] = true ∧
        pinene_total ≤ RED_PINENE_MAX ∧ humulene ≤ RED_HUMULENE_MAX then "RED"
    else if PURPLE_CARYOPHYLLENE_MIN ≤ caryophyllene ∧ pinene_total ≤ PURPLE_PINENE_MAX then "PURPLE"
    else if YELLOW_THRESHOLD ≤ limonene then "YELLOW"
    else if top.1 = "myrcene" then "BLUE"
    else if top.1 = "limonene" then "YELLOW"
    else if top.1 = "caryophyllene" then "PURPLE"
    else if top.1 = "alpha_pinene" ∨ top.1 = "beta_pinene" then "GREEN"
    else if top.1 = "terpinolene" then "ORANGE"
    else "BLUE"

/-- The simplified classifier of claim C5: identical to
`classify_terpene_profile` except that the ORANGE check is just
`terpinolene ≥ 0.35` and the BLUE check is just `myrcene ≥ 0.35` (their
secondary dominance sub-conditions removed); all other checks unchanged. -/
def classify_simplified (terpenes : TerpMap) : String :=
  let terps := normalize_terpene_profile terpenes
  if terps = [] then "BLUE"
  else
    let myrcene := dGet terps "myrcene"
    let limonene := dGet terps "limonene"
    let caryophyllene := dGet terps "caryophyllene"
    let terpinolene := dGet terps "terpinolene"
    let pinene_total := get_combined_pinene terps
    let humulene := dGet terps "humulene"
    let top := get_top_terpene terps
    if ORANGE_THRESHOLD ≤ terpinolene then "ORANGE"
    else if GREEN_THRESHOLD ≤ pinene_total ∨
        ((top.1 = "alpha_pinene" ∨ top.1 = "beta_pinene") ∧ DOMINANCE_MARGIN ≤ top.2) then "GREEN"
    else if BLUE_THRESHOLD ≤ myrcene then "BLUE"
    else if RED_BALANCED_MIN ≤ myrcene ∧ RED_BALANCED_MIN ≤ limonene ∧
        RED_BALANCED_MIN ≤ caryophyllene ∧
        is_within_range [myrcene, limonene, caryophyllene] = true ∧
        pinene_total ≤ RED_PINENE_MAX ∧ humulene ≤ RED_HUMULENE_MAX then "RED"
    else if PURPLE_CARYOPHYLLENE_MIN ≤ caryophyllene ∧ pinene_total ≤ PURPLE_PINENE_MAX then "PURPLE"
    else if YELLOW_THRESHOLD ≤ limonene then "YELLOW"
    else if top.1 = "myrcene" then "BLUE"
    else if top.1 = "limonene" then "YELLOW"
    else if top.1 = "caryophyllene" then "PURPLE"
    else if top.1 = "alpha_pinene" ∨ top.1 = "beta_pinene" then "GREEN"
    else if top.1 = "terpinolene" then "ORANGE"
    else "BLUE"

/-- Insight lines emitted by `generate_cannabinoid_insights`, one
constructor per distinct f-string (ratio payloads kept). -/
inductive Insight
  | ratioThcDominant (q : ℚ)
  | ratioHighThc (q : ℚ)
  | ratioThcLeaning (q : ℚ)
  | ratioBalanced (q : ℚ)
  | ratioCbdRich (q : ℚ)
  | thcDominantMinimalCbd
  | cbdDominantMinimalThc
  | veryHighPotency
  | highPotency
  | moderateHighPotency
  | moderatePotency
  | elevatedCbn
  | notableCbg
  | containsThcv
  | containsCbdv
deriving DecidableEq

/-- Python `(x or 0)` on an `Optional[float]`. -/
def optD (v : Option ℚ) : ℚ := v.getD 0

/-- Python `v and v > thr` on an `Optional[float]` (the minor-cannabinoid
guards: `None` and `0.0` are falsy). -/
def minorFlag (v : Option ℚ) (thr : ℚ) : Bool :=
  match v with
  | none => false
  | some x => decide (x ≠ 0) && decide (thr < x)

/-- The THC:CBD ratio block of `generate_cannabinoid_insights`. -/
def ratioPart (t : Totals) : List Insight :=
  let thc_total := optD (t CannField.thc) + optD (t CannField.thca) * (877 / 1000)
  let cbd_total := optD (t CannField.cbd) + optD (t CannField.cbda) * (877 / 1000)
  if 0 < thc_total ∧ 0 < cbd_total then
    if 20 < thc_total / cbd_total then [.ratioThcDominant (thc_total / cbd_total)]
    else if 5 < thc_total / cbd_total then [.ratioHighThc (thc_total / cbd_total)]
    else if 2 < thc_total / cbd_total then [.ratioThcLeaning (thc_total / cbd_total)]
    else if 1 / 2 < thc_total / cbd_total then [.ratioBalanced (thc_total / cbd_total)]
    else [.ratioCbdRich (thc_total / cbd_total)]
  else if 0 < thc_total then [.thcDominantMinimalCbd]
  else if 0 < cbd_total then [.cbdDominantMinimalThc]
  else []

/-- The potency-tier block of `generate_cannabinoid_insights`. -/
def potencyPart (t : Totals) : List Insight :=
  let thc_total := optD (t CannField.thc) + optD (t CannField.thca) * (877 / 1000)
  if 25 < thc_total then [.veryHighPotency]
  else if 20 < thc_total then [.highPotency]
  else if 15 < thc_total then [.moderateHighPotency]
  else if 10 < thc_total then [.moderatePotency]
  else []

/-- The minor-cannabinoid block of `generate_cannabinoid_insights`
(CBN, CBG, THCV, CBDV, in source order). -/
def minorPart (t : Totals) : List Insight :=
  (if minorFlag (t CannField.cbn) (1 / 200) then [Insight.elevatedCbn] else []) ++
  (if minorFlag (t CannField.cbg) (1 / 100) then [Insight.notableCbg] else []) ++
  (if minorFlag (t CannField.thcv) (1 / 200) then [Insight.containsThcv] else []) ++
  (if minorFlag (t CannField.cbdv) (1 / 200) then [Insight.containsCbdv] else [])

/-- `generate_cannabinoid_insights` from `classifier.py`, translated
statement by statement (the `insights` list grows by successive appends). -/
def generate_cannabinoid_insights (t : Totals) : List Insight :=
  let thc_total := optD (t CannField.thc) + optD (t CannField.thca) * (877 / 1000)
  let cbd_total := optD (t CannField.cbd) + optD (t CannField.cbda) * (877 / 1000)
  let insights : List Insight :=
    if 0 < thc_total ∧ 0 < cbd_total then
      if 20 < thc_total / cbd_total then [.ratioThcDominant (thc_total / cbd_total)]
      else if 5 < thc_total / cbd_total then [.ratioHighThc (thc_total / cbd_total)]
      else if 2 < thc_total / cbd_total then [.ratioThcLeaning (thc_total / cbd_total)]
      else if 1 / 2 < thc_total / cbd_total then [.ratioBalanced (thc_total / cbd_total)]
      else [.ratioCbdRich (thc_total / cbd_total)]
    else if 0 < thc_total then [.thcDominantMinimalCbd]
    else if 0 < cbd_total then [.cbdDominantMinimalThc]
    else []
  let insights := insights ++
    (if 25 < thc_total then [.veryHighPotency]
     else if 20 < thc_total then [.highPotency]
     else if 15 < thc_total then [.moderateHighPotency]
     else if 10 < thc_total then [.moderatePotency]
     else [])
  let insights := insights ++ (if minorFlag (t CannField.cbn) (1 / 200) then [.elevatedCbn] else [])
  let insights := insights ++ (if minorFlag (t CannField.cbg) (1 / 100) then [.notableCbg] else [])
  let insights := insights ++ (if minorFlag (t CannField.thcv) (1 / 200) then [.containsThcv] else [])
  insights ++ (if minorFlag (t CannField.cbdv) (1 / 200) then [.containsCbdv] else [])

/-! ### `app/services/effects_engine.py`

The numeric and list-valued fields of the returned dict are modelled; the
timeline strings (`onset`/`peak`/`duration`) and the generated prose
(`overall_character`, `experience_summary`) are plain string formatting not
referenced by any claim and are left out of the model. -/

/-- One entry of the `TERPENE_EFFECTS` table. -/
structure TerpEffect where
  body_weight : ℚ
  primary_effects : List String
  best_for : List String
  avoid_for : List String
  negatives : List String
  onset_modifier : ℚ
  duration_modifier : ℚ

/-- The `TERPENE_EFFECTS` table from `effects_engine.py`. -/
def TERPENE_EFFECTS : List (String × TerpEffect) :=
  [("myrcene",
    { body_weight := 85 / 100
      primary_effects := ["Relaxing", "Sedating", "Muscle relaxant", "Pain relief"]
      best_for := ["Nighttime", "Sleep", "Pain relief", "Relaxation"]
      avoid_for := ["Daytime productivity", "Social events"]
      negatives := ["Drowsiness", "Couch-lock at high levels"]
      onset_modifier := 0
      duration_modifier := 1 / 10 }),
   ("limonene",
    { body_weight := 2 / 10
      primary_effects := ["Uplifting", "Mood enhancement", "Stress relief", "Anti-anxiety"]
      best_for := ["Daytime", "Social events", "Creative work", "Mood boost"]
      avoid_for := ["Bedtime (may be too stimulating)"]
      negatives := ["Heartburn in sensitive individuals"]
      onset_modifier := -(5 / 100)
      duration_modifier := -(5 / 100) }),
   ("caryophyllene",
    { body_weight := 6 / 10
      primary_effects := ["Anti-inflammatory", "Pain relief", "Stress reduction", "Calming"]
      best_for := ["Pain management", "Stress relief", "Evening wind-down"]
      avoid_for := []
      negatives := ["Dry mouth"]
      onset_modifier := 0
      duration_modifier := 5 / 100 }),
   ("alpha_pinene",
    { body_weight := 15 / 100
      primary_effects := ["Alertness", "Focus", "Memory retention", "Bronchodilator"]
      best_for := ["Daytime", "Studying", "Hiking", "Creative focus"]
      avoid_for := ["Sleep"]
      negatives := ["May increase anxiety in sensitive users"]
      onset_modifier := -(5 / 100)
      duration_modifier := -(1 / 10) }),
   ("beta_pinene",
    { body_weight := 15 / 100
      primary_effects := ["Alertness", "Focus", "Memory retention"]
      best_for := ["Daytime", "Studying", "Focus work"]
      avoid_for := ["Sleep"]
      negatives := []
      onset_modifier := -(5 / 100)
      duration_modifier := -(1 / 10) }),
   ("terpinolene",
    { body_weight := 3 / 10
      primary_effects := ["Uplifting", "Creative", "Energizing", "Antioxidant"]
      best_for := ["Daytime", "Creative work", "Social events", "Exercise"]
      avoid_for := ["Anxiety-prone individuals", "Sleep"]
      negatives := ["Overstimulation if sensitive"]
      onset_modifier := -(1 / 10)
      duration_modifier := -(15 / 100) }),
   ("humulene",
    { body_weight := 5 / 10
      primary_effects := ["Anti-inflammatory", "Appetite suppressant", "Pain relief"]
      best_for := ["Weight management", "Pain relief", "Evening"]
      avoid_for := []
      negatives := []
      onset_modifier := 0
      duration_modifier := 0 }),
   ("linalool",
    { body_weight := 75 / 100
      primary_effects := ["Calming", "Sedative", "Anti-anxiety", "Anti-convulsant"]
      best_for := ["Nighttime", "Anxiety relief", "Sleep", "Relaxation"]
      avoid_for := ["Needing to stay alert"]
      negatives := ["Drowsiness"]
      onset_modifier := 5 / 100
      duration_modifier := 1 / 10 }),
   ("ocimene",
    { body_weight := 25 / 100
      primary_effects := ["Uplifting", "Anti-inflammatory", "Antifungal"]
      best_for := ["Daytime", "Light activity"]
      avoid_for := []
      negatives := []
      onset_modifier := 0
      duration_modifier := -(5 / 100) })]

/-- `TERPENE_EFFECTS.get(name)`. -/
def terpEffect? (name : String) : Option TerpEffect :=
  (TERPENE_EFFECTS.find? (fun kv => kv.1 == name)).map (fun kv => kv.2)

/-- The accumulation loop of `_calc_body_mind_balance`:
`(total_value, total_weight)` over known terpenes with positive fraction. -/
def bodyMindFold (terps : TerpMap) : ℚ × ℚ :=
  terps.foldl
    (fun (acc : ℚ × ℚ) kv =>
      match terpEffect? kv.1 with
      | some e =>
        if (0 : ℚ) < kv.2 then (acc.1 + (1 - e.body_weight) * kv.2, acc.2 + kv.2) else acc
      | none => acc)
    (0, 0)

/-- `_calc_body_mind_balance` from `effects_engine.py`. -/
def calc_body_mind_balance (terps : TerpMap) : ℚ :=
  if 0 < (bodyMindFold terps).2 then (bodyMindFold terps).1 / (bodyMindFold terps).2
  else 1 / 2

/-- `_calc_daytime_score` from `effects_engine.py`. -/
def calc_daytime_score (terps : TerpMap) (body_mind : ℚ) : ℚ :=
  max 0 (min 1
    (body_mind * (6 / 10) +
      (dGet terps "terpinolene" + dGet terps "alpha_pinene" + dGet terps "beta_pinene" +
        dGet terps "limonene" + dGet terps "ocimene") * (8 / 10) -
      (dGet terps "myrcene" + dGet terps "linalool") * (4 / 10)))

/-- Dict write `contexts[ctx] = fraction` guarded by
`ctx not in contexts or fraction > contexts[ctx]`. -/
def updateMax : TerpMap → String → ℚ → TerpMap
  | [], k, v => [(k, v)]
  | (k0, v0) :: rest, k, v =>
    if k0 = k then (if v0 < v then (k0, v) :: rest else (k0, v0) :: rest)
    else (k0, v0) :: updateMax rest k v

/-- `_collect_best_contexts` from `effects_engine.py`: contexts of terpenes
above 5 %, weighted by the maximal contributing fraction, sorted descending,
top 6. -/
def collect_best_contexts (terps : TerpMap) : List String :=
  let contexts := terps.foldl
    (fun m kv =>
      match terpEffect? kv.1 with
      | some e =>
        if 1 / 20 < kv.2 then e.best_for.foldl (fun m2 ctx => updateMax m2 ctx kv.2) m
        else m
      | none => m)
    []
  ((contexts.mergeSort (fun a b => decide (b.2 ≤ a.2))).take 6).map (fun kv => kv.1)

/-- `_collect_negatives` from `effects_engine.py` (the Python set is
modelled as duplicate-free insertion-ordered accumulation). -/
def collect_negatives (terps : TerpMap) (totals : Totals) : List String :=
  let negs := terps.foldl
    (fun acc kv =>
      match terpEffect? kv.1 with
      | some e => if 1 / 10 < kv.2 then e.negatives.foldl insertName acc else acc
      | none => acc)
    []
  let thc_total := optD (totals CannField.thc) + optD (totals CannField.thca) * (877 / 1000)
  let negs :=
    if 25 < thc_total then
      insertName negs "High THC may cause anxiety or paranoia in sensitive users"
    else negs
  if 30 < thc_total then insertName negs "Very high THC — start with a low dose" else negs

/-- `_find_interactions` from `effects_engine.py`: the fixed ordered rule
list, each satisfied rule contributing its narrative string. -/
def find_interactions (t : TerpMap) : List String :=
  (if 15 / 100 < dGet t "limonene" ∧ 20 / 100 < dGet t "myrcene" then
    ["Limonene tempers myrcene's heavy sedation, creating a more balanced relaxation with uplifted mood"]
  else []) ++
  (if 25 / 100 < dGet t "myrcene" ∧ 15 / 100 < dGet t "caryophyllene" then
    ["Myrcene and caryophyllene synergize for deep body relaxation and potent pain relief"]
  else []) ++
  (if 15 / 100 < dGet t "alpha_pinene" + dGet t "beta_pinene" ∧ 20 / 100 < dGet t "myrcene" then
    ["Pinene may counteract some of myrcene's memory-clouding effects while preserving relaxation"]
  else []) ++
  (if 5 / 100 < dGet t "linalool" ∧ 20 / 100 < dGet t "myrcene" then
    ["Linalool and myrcene together amplify sedative effects — strong candidate for sleep aid"]
  else []) ++
  (if 15 / 100 < dGet t "limonene" ∧ 15 / 100 < dGet t "caryophyllene" then
    ["Limonene and caryophyllene together create a spicy-citrus stress relief combo"]
  else []) ++
  (if 15 / 100 < dGet t "terpinolene" ∧ 5 / 100 < dGet t "ocimene" then
    ["Terpinolene and ocimene create a distinctly uplifting, energetic experience characteristic of classic sativas"]
  else []) ++
  (if 15 / 100 < dGet t "caryophyllene" ∧ 5 / 100 < dGet t "humulene" then
    ["Caryophyllene and humulene (both found in hops) work together for enhanced anti-inflammatory effects"]
  else [])

/-- `_calc_intensity` from `effects_engine.py`. -/
def calc_intensity (totals : Totals) : String :=
  let thc0 := optD (totals CannField.thc) + optD (totals CannField.thca) * (877 / 1000)
  let cbd_total := optD (totals CannField.cbd) + optD (totals CannField.cbda) * (877 / 1000)
  let thc_total := if 5 < cbd_total ∧ 0 < thc0 then thc0 * (8 / 10) else thc0
  if 28 < thc_total then "Very High"
  else if 22 < thc_total then "High"
  else if 15 < thc_total then "Moderate-High"
  else if 10 < thc_total then "Moderate"
  else if 0 < thc_total then "Low-Moderate"
  else "Unknown"

/-- Python `round(x, 2)` (round-to-even vs half-up is immaterial to every
statement below, which only uses that rounding is monotone). -/
def round2 (x : ℚ) : ℚ := (round (100 * x) : ℚ) / 100

/-- The modelled fields of the dict returned by `generate_effects_profile`. -/
structure EffectsProfile where
  best_contexts : List String
  potential_negatives : List String
  terpene_interactions : List String
  intensity_estimate : String
  daytime_score : ℚ
  body_mind_balance : ℚ

/-- `generate_effects_profile` from `effects_engine.py`; the empty dict
returned on missing/zero-total terpene data is modelled as `none`. -/
def generate_effects_profile (terpenes : TerpMap) (totals : Totals)
    (category : Option String := none) : Option EffectsProfile :=
  if terpenes = [] then none
  else if 0 < sumValues terpenes then
    some
      { best_contexts :=
          collect_best_contexts (terpenes.map (fun kv => (kv.1, kv.2 / sumValues terpenes)))
        potential_negatives :=
          collect_negatives (terpenes.map (fun kv => (kv.1, kv.2 / sumValues terpenes))) totals
        terpene_interactions :=
          find_interactions (terpenes.map (fun kv => (kv.1, kv.2 / sumValues terpenes)))
        intensity_estimate := calc_intensity totals
        daytime_score :=
          round2 (calc_daytime_score (terpenes.map (fun kv => (kv.1, kv.2 / sumValues terpenes)))
            (calc_body_mind_balance (terpenes.map (fun kv => (kv.1, kv.2 / sumValues terpenes)))))
        body_mind_balance :=
          round2 (calc_body_mind_balance (terpenes.map (fun kv => (kv.1, kv.2 / sumValues terpenes)))) }
  else none

/-! ### Helper lemmas: character classes and normalized-name shape -/

/-- `asciiLower` preserves `isAlphanum`. -/
lemma asciiLower_isAlphanum (c : Char) : (asciiLower c).isAlphanum = c.isAlphanum := by
  unfold asciiLower
  split <;> simp_all

/-- `asciiUpper` preserves `isAlphanum`. -/
lemma asciiUpper_isAlphanum (c : Char) : (asciiUpper c).isAlphanum = c.isAlphanum := by
  unfold asciiUpper
  split <;> simp_all

/-- Alphanumeric characters are not whitespace. -/
lemma not_ws_of_alnum {c : Char} (h : c.isAlphanum = true) : c.isWhitespace = false := by
  rcases hw : c.isWhitespace with _ | _
  · rfl
  · exfalso
    simp [Char.isWhitespace] at hw
    rcases hw with ((h1 | h1) | h1) | h1 <;> subst h1 <;> simp_all

/-- Every character produced by `cleanChars` is alphanumeric or whitespace. -/
lemma cleanChars_mem {c : Char} {cs : List Char} (h : c ∈ cleanChars cs) :
    c.isAlphanum = true ∨ c.isWhitespace = true := by
  unfold cleanChars at h
  rcases List.mem_map.1 h with ⟨d, _, hd⟩
  by_cases h1 : d.isAlphanum || d.isWhitespace
  · rw [if_pos h1] at hd
    subst hd
    simpa using h1
  · rw [if_neg h1] at hd
    subst hd
    right
    rfl

/-- Words produced by `splitWordsAux` from alphanumeric-or-whitespace input
are nonempty and all-alphanumeric. -/
lemma splitWordsAux_sound :
    ∀ (cs acc : List Char),
      (∀ c ∈ cs, c.isAlphanum = true ∨ c.isWhitespace = true) →
      (∀ c ∈ acc, c.isAlphanum = true) →
      ∀ w ∈ splitWordsAux cs acc, w ≠ [] ∧ ∀ c ∈ w, c.isAlphanum = true := by
  intro cs
  induction cs with
  | nil =>
    intro acc _ h2 w hw
    unfold splitWordsAux at hw
    split at hw
    · simp at hw
    · rename_i hacc
      simp at hw
      subst hw
      refine ⟨by simpa using hacc, ?_⟩
      intro c hc
      exact h2 c (List.mem_reverse.1 hc)
  | cons c cs ih =>
    intro acc h1 h2 w hw
    unfold splitWordsAux at hw
    by_cases hcw : c.isWhitespace = true
    · rw [if_pos hcw] at hw
      split at hw
      · exact ih [] (fun d hd => h1 d (List.mem_cons_of_mem c hd)) (by simp) w hw
      · rename_i hacc
        rcases List.mem_cons.1 hw with hw | hw
        · subst hw
          refine ⟨by simpa using hacc, ?_⟩
          intro d hd
          exact h2 d (List.mem_reverse.1 hd)
        · exact ih [] (fun d hd => h1 d (List.mem_cons_of_mem c hd)) (by simp) w hw
    · rw [if_neg hcw] at hw
      have hca : c.isAlphanum = true := by
        rcases h1 c (List.mem_cons_self _ _) with h | h
        · exact h
        · exact absurd h hcw
      refine ih (c :: acc) (fun d hd => h1 d (List.mem_cons_of_mem c hd)) ?_ w hw
      intro d hd
      rcases List.mem_cons.1 hd with hd | hd
      · subst hd; exact hca
      · exact h2 d hd

/-- `wfRest` holds for an all-alphanumeric string. -/
lemma wfRest_of_all_alnum :
    ∀ {cs : List Char}, (∀ c ∈ cs, c.isAlphanum = true) → wfRest cs = true := by
  intro cs
  induction cs with
  | nil => intro _; rfl
  | cons c cs ih =>
    intro h
    unfold wfRest
    rw [if_pos (h c (List.mem_cons_self _ _))]
    exact ih (fun d hd => h d (List.mem_cons_of_mem c hd))

/-- `joinWords` of a nonempty first word is nonempty. -/
lemma joinWords_ne_nil {w : List Char} {ws : List (List Char)} (h : w ≠ []) :
    joinWords (w :: ws) ≠ [] := by
  cases ws with
  | nil => simpa [joinWords] using h
  | cons w2 ws => simp [joinWords]

/-- Appending a space and a well-formed nonempty tail after alphanumeric
characters keeps `wfRest`. -/
lemma wfRest_append_space :
    ∀ (rest J : List Char), (∀ c ∈ rest, c.isAlphanum = true) →
      wellFormed J = true → J ≠ [] → wfRest (rest ++ ' ' :: J) = true := by
  intro rest
  induction rest with
  | nil =>
    intro J _ hJ hne
    cases J with
    | nil => exact absurd rfl hne
    | cons d ds =>
      unfold wellFormed at hJ
      simp only [List.nil_append]
      unfold wfRest
      simp only [Bool.and_eq_true] at hJ
      simp [hJ.1, hJ.2]
  | cons e rest ih =>
    intro J hr hJ hne
    have he : e.isAlphanum = true := hr e (List.mem_cons_self _ _)
    simp only [List.cons_append]
    unfold wfRest
    rw [if_pos he]
    exact ih J (fun d hd => hr d (List.mem_cons_of_mem e hd)) hJ hne

/-- `joinWords` of nonempty all-alphanumeric words is well formed. -/
lemma joinWords_wf :
    ∀ (ws : List (List Char)),
      (∀ w ∈ ws, w ≠ [] ∧ ∀ c ∈ w, c.isAlphanum = true) →
      wellFormed (joinWords ws) = true := by
  intro ws
  induction ws with
  | nil => intro _; rfl
  | cons w ws ih =>
    intro h
    rcases h w (List.mem_cons_self _ _) with ⟨hne, halnum⟩
    cases ws with
    | nil =>
      cases w with
      | nil => exact absurd rfl hne
      | cons c rest =>
        show (c.isAlphanum && wfRest rest) = true
        rw [halnum c (List.mem_cons_self _ _)]
        simpa using wfRest_of_all_alnum (fun d hd => halnum d (List.mem_cons_of_mem c hd))
    | cons w2 ws2 =>
      have h2 : ∀ v ∈ w2 :: ws2, v ≠ [] ∧ ∀ c ∈ v, c.isAlphanum = true :=
        fun v hv => h v (List.mem_cons_of_mem w hv)
      have hJ : wellFormed (joinWords (w2 :: ws2)) = true := ih h2
      have hJne : joinWords (w2 :: ws2) ≠ [] := joinWords_ne_nil (h2 w2 (List.mem_cons_self _ _)).1
      cases w with
      | nil => exact absurd rfl hne
      | cons c rest =>
        show (c.isAlphanum && wfRest (rest ++ ' ' :: joinWords (w2 :: ws2))) = true
        rw [halnum c (List.mem_cons_self _ _)]
        simpa using wfRest_append_space rest _
          (fun d hd => halnum d (List.mem_cons_of_mem c hd)) hJ hJne

/-- The last character of a string satisfying `wfRest` is alphanumeric. -/
lemma wfRest_getLast? :
    ∀ (cs : List Char), wfRest cs = true → ∀ d, cs.getLast? = some d →
      d.isAlphanum = true
  | [], _, d, hd => by simp at hd
  | [c], h, d, hd => by
    simp at hd
    subst hd
    unfold wfRest at h
    split at h
    · assumption
    · split at h <;> simp_all
  | c :: c2 :: cs, h, d, hd => by
    rw [List.getLast?_cons_cons] at hd
    unfold wfRest at h
    split at h
    · exact wfRest_getLast? (c2 :: cs) h d hd
    · split at h
      · cases cs with
        | nil =>
          simp at hd
          subst hd
          rcases (by simpa using h : _ ∧ wfRest [] = true) with ⟨h1, _⟩
          exact h1
        | cons c3 cs =>
          rw [List.getLast?_cons_cons] at hd
          simp only [Bool.and_eq_true] at h
          have h3 : wfRest (c3 :: cs) = true := by
            cases hh : wfRest (c3 :: cs) <;> simp_all
          exact wfRest_getLast? (c3 :: cs) h3 d hd
      · simp at h

/-- The last character of a well-formed string is alphanumeric. -/
lemma wellFormed_getLast? {cs : List Char} (h : wellFormed cs = true)
    {d : Char} (hd : cs.getLast? = some d) : d.isAlphanum = true := by
  cases cs with
  | nil => simp at hd
  | cons c cs =>
    unfold wellFormed at h
    simp only [Bool.and_eq_true] at h
    cases cs with
    | nil =>
      simp at hd
      subst hd
      exact h.1
    | cons c2 cs =>
      rw [List.getLast?_cons_cons] at hd
      have : wfRest (c2 :: cs) = true := h.2
      exact wfRest_getLast? (c2 :: cs) this d hd

/-- `stripL` is the identity on well-formed strings. -/
lemma stripL_of_wellFormed {cs : List Char} (h : wellFormed cs = true) :
    stripL cs = cs := by
  cases cs with
  | nil => rfl
  | cons c cs =>
    unfold wellFormed at h
    simp only [Bool.and_eq_true] at h
    have hcw : c.isWhitespace = false := not_ws_of_alnum h.1
    unfold stripL
    rw [List.dropWhile_cons, hcw]
    simp only [Bool.false_eq_true, if_false]
    rcases hrev : (c :: cs).reverse with _ | ⟨d, es⟩
    · exact absurd hrev (by simp)
    · have hlast : (c :: cs).getLast? = some d := by
        rw [List.getLast?_eq_head?_reverse, hrev]
        rfl
      have hd : d.isAlphanum = true := by
        refine wellFormed_getLast? ?_ hlast
        unfold wellFormed
        simp [h.1, h.2]
      rw [List.dropWhile_cons, not_ws_of_alnum hd]
      simp only [Bool.false_eq_true, if_false]
      rw [← hrev, List.reverse_reverse]

/-- The per-character transformation of `pyTitle` preserves `isAlphanum`. -/
lemma titleChar_isAlphanum (b : Bool) (c : Char) :
    (if c.isAlpha then (if b then asciiLower c else asciiUpper c) else c).isAlphanum =
      c.isAlphanum := by
  by_cases h : c.isAlpha = true
  · rw [if_pos h]
    cases b <;> simp [asciiLower_isAlphanum, asciiUpper_isAlphanum]
  · simp only [Bool.not_eq_true] at h
    simp [h]

/-- `pyTitleAux` preserves `wfRest`. -/
lemma pyTitleAux_wfRest :
    ∀ (cs : List Char) (b : Bool), wfRest cs = true → wfRest (pyTitleAux b cs) = true
  | [], _, _ => rfl
  | [c], b, h => by
    have hc : c.isAlphanum = true := by
      unfold wfRest at h
      split at h
      · assumption
      · split at h <;> simp_all
    unfold pyTitleAux wfRest
    rw [titleChar_isAlphanum b c, hc]
    rfl
  | c :: c2 :: cs, b, h => by
    unfold wfRest at h
    split at h
    · rename_i hc
      have : wfRest (pyTitleAux c.isAlpha (c2 :: cs)) = true :=
        pyTitleAux_wfRest (c2 :: cs) c.isAlpha h
      unfold pyTitleAux wfRest
      rw [titleChar_isAlphanum b c, hc]
      simpa [pyTitleAux] using this
    · split at h
      · rename_i hna hsp
        simp only [Bool.and_eq_true] at h
        have hcs : wfRest (pyTitleAux c2.isAlpha cs) = true :=
          pyTitleAux_wfRest cs c2.isAlpha h.2
        subst hsp
        show wfRest (pyTitleAux b (' ' :: c2 :: cs)) = true
        have e1 : pyTitleAux b (' ' :: c2 :: cs) =
            ' ' :: (if c2.isAlpha then (if (' ' : Char).isAlpha then asciiLower c2
              else asciiUpper c2) else c2) :: pyTitleAux c2.isAlpha cs := by
          cases b <;> rfl
        rw [e1]
        show ((if c2.isAlpha then (if (' ' : Char).isAlpha then asciiLower c2
          else asciiUpper c2) else c2).isAlphanum && wfRest (pyTitleAux c2.isAlpha cs)) = true
        rw [titleChar_isAlphanum, h.1, hcs]
        rfl
      · simp at h

/-- `pyTitle` preserves well-formedness. -/
lemma pyTitle_wellFormed {cs : List Char} (h : wellFormed cs = true) :
    wellFormed (pyTitle cs) = true := by
  cases cs with
  | nil => rfl
  | cons c cs =>
    unfold wellFormed at h
    simp only [Bool.and_eq_true] at h
    show ((if c.isAlpha then (if false then asciiLower c else asciiUpper c) else c).isAlphanum
      && wfRest (pyTitleAux c.isAlpha cs)) = true
    rw [titleChar_isAlphanum false c, h.1, pyTitleAux_wfRest cs c.isAlpha h.2]
    rfl

/-- Round trip: `toList` of `asString`. -/
lemma toList_asString (cs : List Char) : (List.asString cs).toList = cs := rfl

/-- The output of `normalize_strain_name` is well formed for both values of
`title_case`. -/
lemma normalize_strain_name_wellFormed (name : String) (tc : Bool) :
    wellFormed (normalize_strain_name name tc).toList = true := by
  have hwords :
      ∀ w ∈ splitWords (cleanChars (removeSuffixes (lowerL name.toList))),
        w ≠ [] ∧ ∀ c ∈ w, c.isAlphanum = true :=
    splitWordsAux_sound _ [] (fun c hc => cleanChars_mem hc) (by simp)
  have hJ : wellFormed
      (joinWords (splitWords (cleanChars (removeSuffixes (lowerL name.toList))))) = true :=
    joinWords_wf _ hwords
  have hstrip :
      stripL (joinWords (splitWords (cleanChars (removeSuffixes (lowerL name.toList))))) =
        joinWords (splitWords (cleanChars (removeSuffixes (lowerL name.toList)))) :=
    stripL_of_wellFormed hJ
  unfold normalize_strain_name
  cases tc with
  | false =>
    simp only [Bool.false_eq_true, if_false]
    rw [toList_asString, hstrip]
    exact hJ
  | true =>
    show wellFormed ((pyTitle (stripL (joinWords (splitWords
      (cleanChars (removeSuffixes (lowerL name.toList))))))).asString).toList = true
    rw [toList_asString, hstrip]
    exact pyTitle_wellFormed hJ

/-- `replaceAll` is the identity when the pattern does not occur. -/
lemma replaceAll_of_not_contains {pat : List Char} :
    ∀ cs, containsPat pat cs = false → replaceAll pat cs = cs := by
  intro cs
  induction cs with
  | nil => intro _; rw [replaceAll]
  | cons c rest ih =>
    intro h
    unfold containsPat at h
    simp only [Bool.or_eq_false_iff] at h
    rw [replaceAll]
    rw [if_neg (by simp [h.1])]
    rw [ih h.2]

/-- The suffix-removal loop is the identity when no suffix occurs
space-adjacent. -/
lemma removeSuffixes_of_none {cs : List Char}
    (h : noSuffixOccurrence cs = true) : removeSuffixes cs = cs := by
  unfold noSuffixOccurrence at h
  rw [List.all_eq_true] at h
  unfold removeSuffixes
  have : ∀ (l : List (List Char)), (∀ suf ∈ l,
      containsPat (' ' :: suf) cs = false ∧ containsPat (suf ++ [' ']) cs = false) →
      l.foldl (fun acc suf => replaceAll (suf ++ [' ']) (replaceAll (' ' :: suf) acc)) cs = cs := by
    intro l
    induction l with
    | nil => intro _; rfl
    | cons suf l ih =>
      intro hl
      rcases hl suf (List.mem_cons_self _ _) with ⟨h1, h2⟩
      simp only [List.foldl_cons]
      rw [replaceAll_of_not_contains cs h1, replaceAll_of_not_contains cs h2]
      exact ih (fun s hs => hl s (List.mem_cons_of_mem suf hs))
  refine this STRAIN_NAME_SUFFIXES ?_
  intro suf hsuf
  have := h suf hsuf
  simp only [Bool.and_eq_true, Bool.not_eq_true'] at this
  exact this

/-- Helper: a value returned by `safe_float` is the parsed number, parsing
succeeded, and the value is strictly positive. -/
lemma safe_float_some {s : String} {p : ℚ} (h : safe_float s = some p) :
    0 < p ∧ pyFloat (stripL s.toList) = some p := by
  unfold safe_float at h
  split at h
  · exact absurd h (by simp)
  · split at h
    · exact absurd h (by simp)
    · split at h
      · exact ⟨by simp_all, by simp_all⟩
      · exact absurd h (by simp)

/-- Helper: `safe_float` rejects sentinel strings. -/
lemma safe_float_sentinel {s : String}
    (h : lowerL (stripL s.toList) ∈ sentinelStrings) : safe_float s = none := by
  unfold safe_float
  rw [if_pos (Or.inr h)]

/-- Helper: `safe_float` on a string that parses to a positive number which is
not a sentinel returns exactly that number. -/
lemma safe_float_parsed {s : String} {p : ℚ}
    (hsent : lowerL (stripL s.toList) ∉ sentinelStrings)
    (hp : pyFloat (stripL s.toList) = some p) (hpos : 0 < p) :
    safe_float s = some p := by
  have hne : stripL s.toList ≠ [] := by
    intro he
    rw [he] at hp
    simp [pyFloat, parseUnsigned] at hp
  unfold safe_float
  rw [if_neg (by push_neg; exact ⟨hne, hsent⟩), hp]
  simp [hpos]

/-! ### Claim theorems: C1, C6 (conversions), C7, C10 (normalization) -/

/-- C1 counterexample: `safe_terpene_value "245"` parses 245, divides it by
100, and returns `49/20`, which exceeds 1 — refuting the claim that every
returned value lies in (0, 1]. -/
theorem C1_counterexample :
    safe_terpene_value "245" = some (49 / 20) ∧ ¬ ((49 : ℚ) / 20 ≤ 1) := by
  constructor
  · simp +decide [safe_terpene_value, safe_float, stripL, pyFloat, parseUnsigned,
      lowerL, sentinelStrings, digitsToNat, digitVal]
    norm_num
  · norm_num

/-- C1 (amended): every value returned by `safe_terpene_value` is strictly
positive; sentinel strings, parse failures and non-positive parses return
`None`; a returned value exceeds 1 only when the parsed input value exceeds
100 (in which case it is that value divided by 100) — for parsed values at
most 100 the result lies in (0, 1]. -/
theorem C1_amended_thm (s : String) (x : ℚ) (h : safe_terpene_value s = some x) :
    0 < x ∧ (x ≤ 1 ∨ ∃ p, pyFloat (stripL s.toList) = some p ∧ 100 < p ∧ x = p / 100) := by
  unfold safe_terpene_value at h
  rcases hsf : safe_float s with _ | p
  · rw [hsf] at h; simp at h
  · rw [hsf] at h
    change (if 1 < p then some (p / 100) else some p) = some x at h
    rcases safe_float_some hsf with ⟨hpos, hparse⟩
    by_cases h1 : 1 < p
    · rw [if_pos h1] at h
      simp only [Option.some.injEq] at h
      subst h
      refine ⟨div_pos hpos (by norm_num), ?_⟩
      by_cases h100 : 100 < p
      · exact Or.inr ⟨p, hparse, h100, rfl⟩
      · push_neg at h100
        exact Or.inl ((div_le_one (by norm_num)).mpr h100)
    · rw [if_neg h1] at h
      simp only [Option.some.injEq] at h
      subst h
      push_neg at h1
      exact ⟨hpos, Or.inl h1⟩

/-- C1 witness: the amended theorem applied at the concrete input `"245"`. -/
theorem C1_witness :
    0 < (49 : ℚ) / 20 ∧ ((49 : ℚ) / 20 ≤ 1 ∨
      ∃ p, pyFloat (stripL ("245".toList)) = some p ∧ 100 < p ∧ (49 : ℚ) / 20 = p / 100) :=
  C1_amended_thm "245" (49 / 20) (by
    simp +decide [safe_terpene_value, safe_float, stripL, pyFloat, parseUnsigned,
      lowerL, sentinelStrings, digitsToNat, digitVal]
    norm_num)

/-- C6 counterexample: for `x = 1/200 ∈ (0,1]` the decimal string of
`x * 100` is `"0.5"` (it parses to exactly `100 * (1/200)`), yet
`safe_terpene_value` returns `1/2`, not approximately `x` — the percentage
round-trip fails for `x ≤ 1/100`. -/
theorem C6_counterexample :
    (0 : ℚ) < 1 / 200 ∧ (1 : ℚ) / 200 ≤ 1 ∧
    pyFloat (stripL ("0.5".toList)) = some (100 * (1 / 200)) ∧
    safe_terpene_value "0.5" = some (1 / 2) ∧ (1 : ℚ) / 2 ≠ 1 / 200 := by
  refine ⟨by norm_num, by norm_num, ?_, ?_, by norm_num⟩
  · simp +decide [pyFloat, parseUnsigned, stripL, digitsToNat, digitVal]
    norm_num
  · simp +decide [safe_terpene_value, safe_float, stripL, pyFloat, parseUnsigned,
      lowerL, sentinelStrings, digitsToNat, digitVal]
    norm_num

/-- C6 (amended): `safe_terpene_value` round-trips the percentage scale for
x ∈ (1/100, 1] and the fraction scale for x ∈ (0, 1] on non-sentinel
strings; sentinel strings (case-insensitive) yield `None`; parsed
non-positive values yield `None`.  (For x ≤ 1/100 the percentage string
parses to a value ≤ 1 and is returned on the percent scale instead.) -/
theorem C6_amended_thm :
    (∀ (s : String) (x : ℚ), lowerL (stripL s.toList) ∉ sentinelStrings →
      pyFloat (stripL s.toList) = some (100 * x) → 1 / 100 < x → x ≤ 1 →
      safe_terpene_value s = some x) ∧
    (∀ (s : String) (x : ℚ), lowerL (stripL s.toList) ∉ sentinelStrings →
      pyFloat (stripL s.toList) = some x → 0 < x → x ≤ 1 →
      safe_terpene_value s = some x) ∧
    (∀ s : String, lowerL (stripL s.toList) ∈ sentinelStrings →
      safe_terpene_value s = none) ∧
    (∀ (s : String) (x : ℚ), pyFloat (stripL s.toList) = some x → x ≤ 0 →
      safe_terpene_value s = none) := by
  refine ⟨?_, ?_, ?_, ?_⟩
  · intro s x hsent hp hlow hhigh
    have hsf : safe_float s = some (100 * x) :=
      safe_float_parsed hsent hp (by linarith)
    unfold safe_terpene_value
    rw [hsf]
    show (if 1 < 100 * x then some (100 * x / 100) else some (100 * x)) = some x
    rw [if_pos (by linarith : (1 : ℚ) < 100 * x)]
    have : (100 : ℚ) * x / 100 = x := by field_simp
    rw [this]
  · intro s x hsent hp hlow hhigh
    have hsf : safe_float s = some x := safe_float_parsed hsent hp hlow
    unfold safe_terpene_value
    rw [hsf]
    show (if 1 < x then some (x / 100) else some x) = some x
    rw [if_neg (not_lt.mpr hhigh)]
  · intro s hsent
    unfold safe_terpene_value
    rw [safe_float_sentinel hsent]
  · intro s x hp hx
    unfold safe_terpene_value
    rcases hsf : safe_float s with _ | p
    · rfl
    · rcases safe_float_some hsf with ⟨hpos, hparse⟩
      rw [hparse] at hp
      simp only [Option.some.injEq] at hp
      subst hp
      exact absurd hpos (not_lt.mpr hx)

/-- C6 witness: each conjunct of the amended theorem applied at a concrete
input (`"2.5"`, `"0.3"`, `" N/A "`, `"-2"`). -/
theorem C6_witness :
    safe_terpene_value "2.5" = some (1 / 40) ∧
    safe_terpene_value "0.3" = some (3 / 10) ∧
    safe_terpene_value " N/A " = none ∧
    safe_terpene_value "-2" = none :=
  ⟨C6_amended_thm.1 "2.5" (1 / 40) (by decide)
      (by simp +decide [pyFloat, parseUnsigned, stripL, digitsToNat, digitVal]; norm_num)
      (by norm_num) (by norm_num),
   C6_amended_thm.2.1 "0.3" (3 / 10) (by decide)
      (by simp +decide [pyFloat, parseUnsigned, stripL, digitsToNat, digitVal])
      (by norm_num) (by norm_num),
   C6_amended_thm.2.2.1 " N/A " (by decide),
   C6_amended_thm.2.2.2 "-2" (-2)
      (by simp +decide [pyFloat, parseUnsigned, stripL, digitsToNat, digitVal])
      (by norm_num)⟩

set_option maxHeartbeats 1000000 in
/-- C7 counterexample: the suffix removal is plain substring replacement of
`' suffix'`/`'suffix '`, so the word "sunflower" (which merely contains the
suffix "flower" followed by a space boundary) is mangled:
`normalize_strain_name "sunflower seeds"` is `"sunseeds"`, not
`"sunflower seeds"` — refuting "never altering longer words that merely
contain a suffix as a substring". -/
theorem C7_counterexample :
    normalize_strain_name "sunflower seeds" false = "sunseeds" ∧
    normalize_strain_name "sunflower seeds" false ≠ "sunflower seeds" := by
  have h : normalize_strain_name "sunflower seeds" false = "sunseeds" := by
    simp +decide [normalize_strain_name, lowerL, removeSuffixes, STRAIN_NAME_SUFFIXES,
      replaceAll, cleanChars, splitWords, splitWordsAux, joinWords, stripL, asciiLower]
  exact ⟨h, by rw [h]; decide⟩

set_option maxHeartbeats 1600000 in
/-- C7 (amended): `normalize_strain_name` (with `title_case = False`)
lowercases, removes every occurrence of each suffix word with an adjacent
space (which strips suffix words adjacent to other text but can also
truncate longer words containing a suffix at a space boundary), replaces
non-alphanumeric non-space characters by spaces, collapses whitespace and
trims.  In particular `"OG Kush #18"` ↦ `"og kush 18"`,
`"Blue Dream flower"` ↦ `"blue dream"`, `""` ↦ `""`, and when no suffix
occurs space-adjacent in the lowercased input the suffix-removal step is a
no-op. -/
theorem C7_amended_thm :
    normalize_strain_name "OG Kush #18" false = "og kush 18" ∧
    normalize_strain_name "Blue Dream flower" false = "blue dream" ∧
    normalize_strain_name "" false = "" ∧
    normalize_strain_name "sunflower seeds" false = "sunseeds" ∧
    (∀ name : String, noSuffixOccurrence (lowerL name.toList) = true →
      normalize_strain_name name false = normalize_no_suffix name) := by
  refine ⟨?_, ?_, ?_, ?_, ?_⟩
  · simp +decide [normalize_strain_name, lowerL, removeSuffixes, STRAIN_NAME_SUFFIXES,
      replaceAll, cleanChars, splitWords, splitWordsAux, joinWords, stripL, asciiLower]
  · simp +decide [normalize_strain_name, lowerL, removeSuffixes, STRAIN_NAME_SUFFIXES,
      replaceAll, cleanChars, splitWords, splitWordsAux, joinWords, stripL, asciiLower]
  · simp +decide [normalize_strain_name, lowerL, removeSuffixes, STRAIN_NAME_SUFFIXES,
      replaceAll, cleanChars, splitWords, splitWordsAux, joinWords, stripL, asciiLower]
  · simp +decide [normalize_strain_name, lowerL, removeSuffixes, STRAIN_NAME_SUFFIXES,
      replaceAll, cleanChars, splitWords, splitWordsAux, joinWords, stripL, asciiLower]
  · intro name h
    unfold normalize_strain_name normalize_no_suffix
    rw [removeSuffixes_of_none h]
    rfl

/-- C7 witness: the no-op conjunct of the amended theorem applied at the
concrete suffix-free input `"gelato"`. -/
theorem C7_witness :
    noSuffixOccurrence (lowerL ("gelato".toList)) = true ∧
    normalize_strain_name "gelato" false = normalize_no_suffix "gelato" :=
  ⟨by decide, C7_amended_thm.2.2.2.2 "gelato" (by decide)⟩

/-- C10: for every input string and either value of `title_case`, the output
of `normalize_strain_name` consists only of alphanumeric characters
separated by single spaces, with no leading or trailing whitespace and no
punctuation. -/
theorem C10_thm (name : String) (tc : Bool) :
    wellFormed (normalize_strain_name name tc).toList = true :=
  normalize_strain_name_wellFormed name tc

/-! ### Claim theorems: C3 (analyzer no-data check) and C8 (insights) -/

/-- Python truthiness of an `Optional[float]` is false iff the value is
`None` or `0.0`. -/
lemma pyTruthy_eq_false {v : Option ℚ} :
    pyTruthy v = false ↔ v = none ∨ v = some 0 := by
  cases v with
  | none => simp [pyTruthy]
  | some x => simp [pyTruthy]

/-- C3 counterexample: with an empty merged terpene map and merged totals
whose only entry is `thcv = 1` — one of the 17 cannabinoid fields, strictly
positive — the analyzer still raises the no-data error, because the check
inspects only thc, thca, cbd, cbda, cbn, cbg, cbc. -/
theorem C3_counterexample :
    noDataError [] (fun f => if f = CannField.thcv then some 1 else none) = true ∧
    (fun f => if f = CannField.thcv then some 1 else none : Totals) CannField.thcv = some 1 ∧
    CannField.thcv ∈ cannabinoidFields := by
  refine ⟨?_, rfl, by decide⟩
  simp +decide [noDataError, has_cannabinoids_check, pyTruthy]

/-- C3 (amended): the no-data error is raised iff the merged terpene map is
empty and each of the seven checked fields (thc, thca, cbd, cbda, cbn, cbg,
cbc) is absent or zero; a positive value in one of the other ten cannabinoid
fields of the merged totals does not prevent the error. -/
theorem C3_amended_thm (terps : TerpMap) (t : Totals) :
    noDataError terps t = true ↔
      (terps = [] ∧ ∀ f ∈ ([CannField.thc, CannField.thca, CannField.cbd,
        CannField.cbda, CannField.cbn, CannField.cbg, CannField.cbc] : List CannField),
        t f = none ∨ t f = some 0) := by
  unfold noDataError has_cannabinoids_check
  simp only [Bool.and_eq_true, Bool.not_eq_true', Bool.or_eq_false_iff,
    decide_eq_false_iff_not, not_not, pyTruthy_eq_false, List.forall_mem_cons,
    List.forall_mem_nil, and_true]
  constructor
  · rintro ⟨h1, ⟨⟨⟨⟨⟨⟨h2, h3⟩, h4⟩, h5⟩, h6⟩, h7⟩, h8⟩⟩
    exact ⟨h1, h2, h3, h4, h5, h6, h7, h8, fun x hx => absurd hx (List.not_mem_nil x)⟩
  · rintro ⟨h1, h2, h3, h4, h5, h6, h7, h8, _⟩
    exact ⟨h1, ⟨⟨⟨⟨⟨⟨h2, h3⟩, h4⟩, h5⟩, h6⟩, h7⟩, h8⟩⟩

/-- C8: `generate_cannabinoid_insights` (decarboxylation factor 0.877):
`Totals(thc=28)` yields the "Very high potency" insight;
`Totals(thc=25, cbd=0.5)` yields the "THC-dominant" ratio insight (50:1);
and for every input the emitted list is exactly the ratio/dominance block,
then the potency tier, then the minor flags in the order CBN, CBG, THCV,
CBDV. -/
theorem C8_thm :
    Insight.veryHighPotency ∈ generate_cannabinoid_insights
      (fun f => if f = CannField.thc then some 28 else none) ∧
    Insight.ratioThcDominant 50 ∈ generate_cannabinoid_insights
      (fun f => if f = CannField.thc then some 25
                else if f = CannField.cbd then some (1 / 2) else none) ∧
    (∀ t : Totals, generate_cannabinoid_insights t =
      ratioPart t ++ potencyPart t ++ minorPart t) ∧
    (∀ t : Totals, (minorPart t).Sublist
      [Insight.elevatedCbn, Insight.notableCbg, Insight.containsThcv,
       Insight.containsCbdv]) := by
  refine ⟨?_, ?_, ?_, ?_⟩
  · norm_num +decide [generate_cannabinoid_insights, optD, minorFlag]
  · norm_num +decide [generate_cannabinoid_insights, optD, minorFlag]
  · intro t
    simp only [generate_cannabinoid_insights, ratioPart, potencyPart, minorPart,
      List.append_assoc]
  · intro t
    unfold minorPart
    split_ifs <;> decide

/-! ### Helper lemmas for the classifier (C4, C5) -/

/-- Lookup of a member under duplicate-free keys. -/
lemma tdLookup_eq_of_mem :
    ∀ {l : TerpMap} {k : String} {v : ℚ}, (keysOf l).Nodup → (k, v) ∈ l →
      tdLookup l k = some v := by
  intro l
  induction l with
  | nil => intro k v _ h; simp at h
  | cons p rest ih =>
    intro k v hnd hmem
    rcases p with ⟨k0, v0⟩
    simp only [keysOf, List.map_cons, List.nodup_cons] at hnd
    rcases List.mem_cons.1 hmem with hmem | hmem
    · rw [Prod.mk.injEq] at hmem
      unfold tdLookup
      rw [if_pos hmem.1.symm, hmem.2]
    · unfold tdLookup
      by_cases hk : k0 = k
      · exfalso
        subst hk
        exact hnd.1 (by simpa [keysOf] using List.mem_map_of_mem (fun kv => kv.1) hmem)
      · rw [if_neg hk]
        exact ih hnd.2 hmem

/-- `dGet` of a member under duplicate-free keys. -/
lemma dGet_eq_of_mem {l : TerpMap} {k : String} {v : ℚ}
    (hnd : (keysOf l).Nodup) (hmem : (k, v) ∈ l) : dGet l k = v := by
  unfold dGet
  rw [tdLookup_eq_of_mem hnd hmem]
  rfl

/-- The Python `max` fold stays inside the list. -/
lemma foldl_pick_mem :
    ∀ (rest : TerpMap) (p : String × ℚ),
      rest.foldl (fun best q => if best.2 < q.2 then q else best) p ∈ p :: rest := by
  intro rest
  induction rest with
  | nil => intro p; simp
  | cons q rest ih =>
    intro p
    simp only [List.foldl_cons]
    by_cases hpq : p.2 < q.2
    · rw [if_pos hpq]
      rcases List.mem_cons.1 (ih q) with h | h
      · rw [h]; simp
      · exact List.mem_cons_of_mem p (List.mem_cons_of_mem q h)
    · rw [if_neg hpq]
      rcases List.mem_cons.1 (ih p) with h | h
      · rw [h]; simp
      · exact List.mem_cons_of_mem p (List.mem_cons_of_mem q h)

/-- `get_top_terpene` of a nonempty dict is one of its entries. -/
lemma get_top_terpene_mem {l : TerpMap} (h : l ≠ []) : get_top_terpene l ∈ l := by
  cases l with
  | nil => exact absurd rfl h
  | cons p rest =>
    unfold get_top_terpene
    exact foldl_pick_mem rest p

/-- Keys after a dict write. -/
lemma keysOf_insertOrUpdate :
    ∀ (l : TerpMap) (k : String) (v : ℚ),
      keysOf (insertOrUpdate l k v) =
        if k ∈ keysOf l then keysOf l else keysOf l ++ [k] := by
  intro l
  induction l with
  | nil => intro k v; simp [insertOrUpdate, keysOf]
  | cons p rest ih =>
    intro k v
    rcases p with ⟨k0, v0⟩
    by_cases hk : k0 = k
    · subst hk
      simp [insertOrUpdate, keysOf]
    · unfold insertOrUpdate
      rw [if_neg hk]
      simp only [keysOf, List.map_cons] at *
      rw [ih k v]
      by_cases hmem : k ∈ List.map (fun kv => kv.1) rest
      · rw [if_pos hmem, if_pos (List.mem_cons_of_mem _ hmem)]
      · rw [if_neg hmem]
        have hknotin : k ∉ k0 :: List.map (fun kv => kv.1) rest := by
          simp [hmem, Ne.symm hk]
        rw [if_neg hknotin]
        simp

/-- A dict write preserves duplicate-free keys. -/
lemma nodup_insertOrUpdate {l : TerpMap} {k : String} {v : ℚ}
    (h : (keysOf l).Nodup) : (keysOf (insertOrUpdate l k v)).Nodup := by
  rw [keysOf_insertOrUpdate]
  by_cases hmem : k ∈ keysOf l
  · rwa [if_pos hmem]
  · rw [if_neg hmem]
    simpa [List.nodup_append] using ⟨h, hmem⟩

/-- The accumulation loop of `normalize_terpene_profile` preserves
duplicate-free keys. -/
lemma normFold_nodup :
    ∀ (l : TerpMap) (acc : TerpMap), (keysOf acc).Nodup →
      (keysOf (l.foldl
        (fun acc kv =>
          if 0 < kv.2 then insertOrUpdate acc (kmLookup (lowerS kv.1)) kv.2 else acc)
        acc)).Nodup := by
  intro l
  induction l with
  | nil => intro acc h; exact h
  | cons kv rest ih =>
    intro acc h
    simp only [List.foldl_cons]
    by_cases hpos : (0 : ℚ) < kv.2
    · rw [if_pos hpos]
      exact ih _ (nodup_insertOrUpdate h)
    · rw [if_neg hpos]
      exact ih _ h

/-- Keys are unchanged by the final division step. -/
lemma keysOf_map_div (l : TerpMap) (t : ℚ) :
    keysOf (l.map (fun kv => (kv.1, kv.2 / t))) = keysOf l := by
  simp [keysOf, List.map_map]

/-- `normalize_terpene_profile` produces duplicate-free keys. -/
lemma normalize_terpene_profile_nodup (t : TerpMap) :
    (keysOf (normalize_terpene_profile t)).Nodup := by
  have h := normFold_nodup t [] (by simp [keysOf])
  simp only [normalize_terpene_profile]
  split
  · rw [keysOf_map_div]
    exact h
  · exact h

/-- With no positive value in the input, the accumulation loop adds
nothing. -/
lemma normFold_nil :
    ∀ (l : TerpMap) (acc : TerpMap), (∀ kv ∈ l, kv.2 ≤ 0) →
      l.foldl
        (fun acc kv =>
          if 0 < kv.2 then insertOrUpdate acc (kmLookup (lowerS kv.1)) kv.2 else acc)
        acc = acc := by
  intro l
  induction l with
  | nil => intro acc _; rfl
  | cons kv rest ih =>
    intro acc h
    simp only [List.foldl_cons]
    rw [if_neg (not_lt.mpr (h kv (List.mem_cons_self _ _)))]
    exact ih acc (fun p hp => h p (List.mem_cons_of_mem kv hp))

/-- With no positive value in the input, normalization yields the empty
profile. -/
lemma normalize_terpene_profile_nil {t : TerpMap} (h : ∀ kv ∈ t, kv.2 ≤ 0) :
    normalize_terpene_profile t = [] := by
  unfold normalize_terpene_profile
  rw [normFold_nil t [] h]
  simp [sumValues]

/-- Membership in a list is preserved under `ite`. -/
lemma ite_mem_of {c : Prop} [Decidable c] {a b : String} {L : List String}
    (ha : a ∈ L) (hb : b ∈ L) : (if c then a else b) ∈ L := by
  by_cases h : c
  · rwa [if_pos h]
  · rwa [if_neg h]

/-! ### Claim theorems: C4 and C5 (classifier) -/

/-- C4: for every terpene map, `classify_terpene_profile` is total and
returns one of the six category strings BLUE, YELLOW, PURPLE, GREEN,
ORANGE, RED; when no positive terpene remains after normalization it
returns BLUE. -/
theorem C4_thm (terpenes : TerpMap) :
    classify_terpene_profile terpenes ∈
      (["BLUE", "YELLOW", "PURPLE", "GREEN", "ORANGE", "RED"] : List String) ∧
    ((∀ kv ∈ terpenes, kv.2 ≤ 0) → classify_terpene_profile terpenes = "BLUE") := by
  constructor
  · simp only [classify_terpene_profile]
    generalize normalize_terpene_profile terpenes = T
    repeat' apply ite_mem_of
    all_goals decide
  · intro h
    simp only [classify_terpene_profile]
    rw [normalize_terpene_profile_nil h]
    simp

/-- C4 witness: the theorem applied at the all-non-positive input
`[("myrcene", -1)]`. -/
theorem C4_witness :
    classify_terpene_profile [("myrcene", -1)] ∈
      (["BLUE", "YELLOW", "PURPLE", "GREEN", "ORANGE", "RED"] : List String) ∧
    classify_terpene_profile [("myrcene", -1)] = "BLUE" :=
  ⟨(C4_thm [("myrcene", -1)]).1,
   (C4_thm [("myrcene", -1)]).2 (by
     intro kv hkv
     rw [List.mem_singleton] at hkv
     subst hkv
     norm_num)⟩

/-- C5: the secondary dominance sub-conditions of the ORANGE and BLUE checks
are vacuous (when the top terpene is terpinolene/myrcene, `top_value` equals
that very proportion, so `top_value - it ≥ 0.10` never holds):
`classify_terpene_profile` agrees everywhere with the simplified classifier
whose ORANGE check is just `terpinolene ≥ 0.35` and BLUE check is just
`myrcene ≥ 0.35`. -/
theorem C5_thm (terpenes : TerpMap) :
    classify_terpene_profile terpenes = classify_simplified terpenes := by
  simp only [classify_terpene_profile, classify_simplified]
  by_cases hE : normalize_terpene_profile terpenes = []
  · simp [hE]
  · have hnodup := normalize_terpene_profile_nodup terpenes
    have htop : get_top_terpene (normalize_terpene_profile terpenes) ∈
        normalize_terpene_profile terpenes := get_top_terpene_mem hE
    have horange :
        ¬((get_top_terpene (normalize_terpene_profile terpenes)).1 = "terpinolene" ∧
          DOMINANCE_MARGIN ≤ (get_top_terpene (normalize_terpene_profile terpenes)).2 -
            dGet (normalize_terpene_profile terpenes) "terpinolene") := by
      rintro ⟨h1, h2⟩
      have hmem : ((get_top_terpene (normalize_terpene_profile terpenes)).1,
          (get_top_terpene (normalize_terpene_profile terpenes)).2) ∈
          normalize_terpene_profile terpenes := by simpa using htop
      rw [h1] at hmem
      have hv := dGet_eq_of_mem hnodup hmem
      rw [hv] at h2
      norm_num [DOMINANCE_MARGIN] at h2
    have hblue :
        ¬((get_top_terpene (normalize_terpene_profile terpenes)).1 = "myrcene" ∧
          DOMINANCE_MARGIN ≤ (get_top_terpene (normalize_terpene_profile terpenes)).2 -
            dGet (normalize_terpene_profile terpenes) "myrcene") := by
      rintro ⟨h1, h2⟩
      have hmem : ((get_top_terpene (normalize_terpene_profile terpenes)).1,
          (get_top_terpene (normalize_terpene_profile terpenes)).2) ∈
          normalize_terpene_profile terpenes := by simpa using htop
      rw [h1] at hmem
      have hv := dGet_eq_of_mem hnodup hmem
      rw [hv] at h2
      norm_num [DOMINANCE_MARGIN] at h2
    simp only [horange, hblue, or_false]

/-! ### Helper lemmas for the source merger (C2) -/

/-- A successful lookup means the key is present. -/
lemma tdLookup_some_mem_keys :
    ∀ {d : TerpMap} {k : String} {v : ℚ}, tdLookup d k = some v → k ∈ keysOf d := by
  intro d
  induction d with
  | nil => intro k v h; simp [tdLookup] at h
  | cons p rest ih =>
    intro k v h
    unfold tdLookup at h
    by_cases hk : p.1 = k
    · simp [keysOf, hk]
    · rw [if_neg hk] at h
      simpa [keysOf] using Or.inr (ih h)

/-- An absent key looks up to `none`. -/
lemma tdLookup_none_of_not_mem :
    ∀ {d : TerpMap} {k : String}, k ∉ keysOf d → tdLookup d k = none := by
  intro d
  induction d with
  | nil => intro k _; rfl
  | cons p rest ih =>
    intro k h
    simp only [keysOf, List.map_cons, List.mem_cons, not_or] at h
    unfold tdLookup
    rw [if_neg (fun he => h.1 he.symm)]
    exact ih (by simpa [keysOf] using h.2)

/-- Appending an entry with a different key does not change a lookup. -/
lemma tdLookup_append_ne :
    ∀ {l : TerpMap} {k k2 : String} {v : ℚ}, k2 ≠ k →
      tdLookup (l ++ [(k2, v)]) k = tdLookup l k := by
  intro l
  induction l with
  | nil => intro k k2 v h; simp [tdLookup, if_neg h]
  | cons p rest ih =>
    intro k k2 v h
    unfold tdLookup
    by_cases hk : p.1 = k
    · rw [List.cons_append]
      show (if p.1 = k then some p.2 else tdLookup (rest ++ [(k2, v)]) k) = _
      rw [if_pos hk, if_pos hk]
    · rw [List.cons_append]
      show (if p.1 = k then some p.2 else tdLookup (rest ++ [(k2, v)]) k) = _
      rw [if_neg hk, if_neg hk]
      exact ih h

/-- Appending an entry for a previously absent key makes it the lookup
result. -/
lemma tdLookup_append_eq :
    ∀ {l : TerpMap} {k : String} {v : ℚ}, tdLookup l k = none →
      tdLookup (l ++ [(k, v)]) k = some v := by
  intro l
  induction l with
  | nil => intro k v _; simp [tdLookup]
  | cons p rest ih =>
    intro k v h
    unfold tdLookup at h
    by_cases hk : p.1 = k
    · rw [if_pos hk] at h
      simp at h
    · rw [if_neg hk] at h
      rw [List.cons_append]
      show (if p.1 = k then some p.2 else tdLookup (rest ++ [(k, v)]) k) = some v
      rw [if_neg hk]
      exact ih h

/-- Membership in `insertName`. -/
lemma insertName_mem {l : List String} {n m : String} :
    n ∈ insertName l m ↔ n ∈ l ∨ n = m := by
  unfold insertName
  split
  · rename_i hm
    constructor
    · exact Or.inl
    · rintro (h | h)
      · exact h
      · rwa [h]
  · simp

/-- Keys outside the folded key set are untouched by the terpene merge
loop. -/
lemma mergeTerpFold_absent (S : List (String × TerpMap)) :
    ∀ (keys : List String) (acc : TerpMap × List String) (k : String),
      k ∉ keys →
      tdLookup (keys.foldl (mergeTerpStep S) acc).1 k = tdLookup acc.1 k := by
  intro keys
  induction keys with
  | nil => intro acc k _; rfl
  | cons k0 keys ih =>
    intro acc k hk
    simp only [List.mem_cons, not_or] at hk
    simp only [List.foldl_cons]
    rw [ih _ k hk.2]
    unfold mergeTerpStep
    rcases hfp : firstPosTerp S k0 with _ | nv
    · rfl
    · exact tdLookup_append_ne (fun he => hk.1 he.symm)

/-- Inside the folded key set, the terpene merge loop realizes exactly the
first positive source. -/
lemma mergeTerpFold_present (S : List (String × TerpMap)) :
    ∀ (keys : List String) (acc : TerpMap × List String) (k : String),
      k ∈ keys → keys.Nodup → tdLookup acc.1 k = none →
      tdLookup (keys.foldl (mergeTerpStep S) acc).1 k =
        Option.map Prod.snd (firstPosTerp S k) := by
  intro keys
  induction keys with
  | nil => intro acc k h; simp at h
  | cons k0 keys ih =>
    intro acc k hk hnd hacc
    rw [List.nodup_cons] at hnd
    simp only [List.foldl_cons]
    rcases List.mem_cons.1 hk with hk0 | hmem
    · subst hk0
      rw [mergeTerpFold_absent S keys _ k hnd.1]
      unfold mergeTerpStep
      rcases hfp : firstPosTerp S k with _ | nv
      · exact hacc
      · exact tdLookup_append_eq hacc
    · by_cases hk0 : k = k0
      · subst hk0
        rw [mergeTerpFold_absent S keys _ k hnd.1]
        unfold mergeTerpStep
        rcases hfp : firstPosTerp S k with _ | nv
        · exact hacc
        · exact tdLookup_append_eq hacc
      · refine ih _ k hmem hnd.2 ?_
        unfold mergeTerpStep
        rcases hfp : firstPosTerp S k0 with _ | nv
        · exact hacc
        · rw [tdLookup_append_ne (fun he => hk0 he.symm)]
          exact hacc

/-- Source bookkeeping of the terpene merge loop. -/
lemma mergeTerpFold_sources (S : List (String × TerpMap)) :
    ∀ (keys : List String) (acc : TerpMap × List String) (n : String),
      n ∈ (keys.foldl (mergeTerpStep S) acc).2 ↔
        n ∈ acc.2 ∨ ∃ k ∈ keys, ∃ v, firstPosTerp S k = some (n, v) := by
  intro keys
  induction keys with
  | nil => intro acc n; simp
  | cons k0 keys ih =>
    intro acc n
    simp only [List.foldl_cons]
    rw [ih]
    unfold mergeTerpStep
    rcases hfp : firstPosTerp S k0 with _ | nv
    · constructor
      · rintro (h | ⟨k, hkmem, v, hv⟩)
        · exact Or.inl h
        · exact Or.inr ⟨k, List.mem_cons_of_mem k0 hkmem, v, hv⟩
      · rintro (h | ⟨k, hkmem, v, hv⟩)
        · exact Or.inl h
        · rcases List.mem_cons.1 hkmem with he | he
          · subst he
            rw [hfp] at hv
            simp at hv
          · exact Or.inr ⟨k, he, v, hv⟩
    · simp only [insertName_mem]
      constructor
      · rintro ((h | h) | ⟨k, hkmem, v, hv⟩)
        · exact Or.inl h
        · exact Or.inr ⟨k0, List.mem_cons_self _ _, nv.2, by rw [hfp, h]⟩
        · exact Or.inr ⟨k, List.mem_cons_of_mem k0 hkmem, v, hv⟩
      · rintro (h | ⟨k, hkmem, v, hv⟩)
        · exact Or.inl (Or.inl h)
        · rcases List.mem_cons.1 hkmem with he | he
          · subst he
            rw [hfp] at hv
            simp only [Option.some.injEq] at hv
            exact Or.inl (Or.inr (by rw [hv]))
          · exact Or.inr ⟨k, he, v, hv⟩

/-- When no source holds the key, there is no first positive source. -/
lemma firstPosTerp_none_of_all_none :
    ∀ (S : List (String × TerpMap)) (k : String),
      (∀ p ∈ S, tdLookup p.2 k = none) → firstPosTerp S k = none := by
  intro S
  induction S with
  | nil => intro k _; rfl
  | cons p rest ih =>
    intro k h
    rcases p with ⟨n, d⟩
    unfold firstPosTerp
    rw [h (n, d) (List.mem_cons_self _ _)]
    exact ih k (fun q hq => h q (List.mem_cons_of_mem _ hq))

/-- A first positive source holds the key. -/
lemma firstPosTerp_mem_keys :
    ∀ (S : List (String × TerpMap)) (k : String) (nv : String × ℚ),
      firstPosTerp S k = some nv → ∃ p ∈ S, k ∈ keysOf p.2 := by
  intro S
  induction S with
  | nil => intro k nv h; simp [firstPosTerp] at h
  | cons p rest ih =>
    intro k nv h
    rcases p with ⟨n, d⟩
    unfold firstPosTerp at h
    rcases hl : tdLookup d k with _ | v
    · rw [hl] at h
      rcases ih k nv h with ⟨q, hq, hk⟩
      exact ⟨q, List.mem_cons_of_mem _ hq, hk⟩
    · exact ⟨(n, d), List.mem_cons_self _ _, tdLookup_some_mem_keys hl⟩

/-- Fields outside the folded field list are untouched by the cannabinoid
merge loop. -/
lemma mergeCannFold_absent (S : List (String × Totals)) :
    ∀ (fields : List CannField) (acc : Totals × List String) (f : CannField),
      f ∉ fields → (fields.foldl (mergeCannStep S) acc).1 f = acc.1 f := by
  intro fields
  induction fields with
  | nil => intro acc f _; rfl
  | cons f0 fields ih =>
    intro acc f hf
    simp only [List.mem_cons, not_or] at hf
    simp only [List.foldl_cons]
    rw [ih _ f hf.2]
    unfold mergeCannStep
    rcases hfp : firstPosCann S f0 with _ | nv
    · rfl
    · show Totals.set acc.1 f0 nv.2 f = acc.1 f
      unfold Totals.set
      rw [if_neg hf.1]

/-- Inside the folded field list, the cannabinoid merge loop realizes
exactly the first positive source. -/
lemma mergeCannFold_present (S : List (String × Totals)) :
    ∀ (fields : List CannField) (acc : Totals × List String) (f : CannField),
      f ∈ fields → fields.Nodup → acc.1 f = none →
      (fields.foldl (mergeCannStep S) acc).1 f =
        Option.map Prod.snd (firstPosCann S f) := by
  intro fields
  induction fields with
  | nil => intro acc f h; simp at h
  | cons f0 fields ih =>
    intro acc f hf hnd hacc
    rw [List.nodup_cons] at hnd
    simp only [List.foldl_cons]
    rcases List.mem_cons.1 hf with hf0 | hmem
    · subst hf0
      rw [mergeCannFold_absent S fields _ f hnd.1]
      unfold mergeCannStep
      rcases hfp : firstPosCann S f with _ | nv
      · exact hacc
      · show Totals.set acc.1 f nv.2 f = _
        unfold Totals.set
        rw [if_pos rfl]
        rfl
    · by_cases hf0 : f = f0
      · subst hf0
        rw [mergeCannFold_absent S fields _ f hnd.1]
        unfold mergeCannStep
        rcases hfp : firstPosCann S f with _ | nv
        · exact hacc
        · show Totals.set acc.1 f nv.2 f = _
          unfold Totals.set
          rw [if_pos rfl]
          rfl
      · refine ih _ f hmem hnd.2 ?_
        unfold mergeCannStep
        rcases hfp : firstPosCann S f0 with _ | nv
        · exact hacc
        · show Totals.set acc.1 f0 nv.2 f = none
          unfold Totals.set
          rw [if_neg hf0]
          exact hacc

/-- Source bookkeeping of the cannabinoid merge loop. -/
lemma mergeCannFold_sources (S : List (String × Totals)) :
    ∀ (fields : List CannField) (acc : Totals × List String) (n : String),
      n ∈ (fields.foldl (mergeCannStep S) acc).2 ↔
        n ∈ acc.2 ∨ ∃ f ∈ fields, ∃ v, firstPosCann S f = some (n, v) := by
  intro fields
  induction fields with
  | nil => intro acc n; simp
  | cons f0 fields ih =>
    intro acc n
    simp only [List.foldl_cons]
    rw [ih]
    unfold mergeCannStep
    rcases hfp : firstPosCann S f0 with _ | nv
    · constructor
      · rintro (h | ⟨f, hfmem, v, hv⟩)
        · exact Or.inl h
        · exact Or.inr ⟨f, List.mem_cons_of_mem f0 hfmem, v, hv⟩
      · rintro (h | ⟨f, hfmem, v, hv⟩)
        · exact Or.inl h
        · rcases List.mem_cons.1 hfmem with he | he
          · subst he
            rw [hfp] at hv
            simp at hv
          · exact Or.inr ⟨f, he, v, hv⟩
    · simp only [insertName_mem]
      constructor
      · rintro ((h | h) | ⟨f, hfmem, v, hv⟩)
        · exact Or.inl h
        · exact Or.inr ⟨f0, List.mem_cons_self _ _, nv.2, by rw [hfp, h]⟩
        · exact Or.inr ⟨f, List.mem_cons_of_mem f0 hfmem, v, hv⟩
      · rintro (h | ⟨f, hfmem, v, hv⟩)
        · exact Or.inl (Or.inl h)
        · rcases List.mem_cons.1 hfmem with he | he
          · subst he
            rw [hfp] at hv
            simp only [Option.some.injEq] at hv
            exact Or.inl (Or.inr (by rw [hv]))
          · exact Or.inr ⟨f, he, v, hv⟩

/-- Every cannabinoid field is in the merge loop's field list. -/
lemma cannabinoidFields_complete : ∀ f : CannField, f ∈ cannabinoidFields := by
  intro f
  cases f <;> decide

/-- The merge loop's field list has no duplicates. -/
lemma cannabinoidFields_nodup : cannabinoidFields.Nodup := by decide

/-! ### Claim theorem: C2 (source merger) -/

/-- C2: for both merge functions, every key/field of the merged output is
exactly the value of the highest-priority source (coa > page > database >
api) holding it with a strictly positive value — absent keys/fields with no
positive source are omitted (`none`); `sources_used` contains exactly the
sources that supplied at least one key/field; and a positive `coa` value
always wins. -/
theorem C2_thm :
    (∀ (coa page db api : TerpMap) (k : String),
      tdLookup (merge_terpene_data coa page db api).1 k =
        Option.map Prod.snd (firstPosTerp (terpSources coa page db api) k)) ∧
    (∀ (coa page db api : TerpMap) (n : String),
      n ∈ (merge_terpene_data coa page db api).2 ↔
        ∃ k v, firstPosTerp (terpSources coa page db api) k = some (n, v)) ∧
    (∀ (coa page db api : TerpMap) (k : String) (v : ℚ),
      tdLookup coa k = some v → 0 < v →
      tdLookup (merge_terpene_data coa page db api).1 k = some v) ∧
    (∀ (coa page db api : Totals) (f : CannField),
      (merge_cannabinoid_data coa page db api).1 f =
        Option.map Prod.snd (firstPosCann (cannSources coa page db api) f)) ∧
    (∀ (coa page db api : Totals) (n : String),
      n ∈ (merge_cannabinoid_data coa page db api).2 ↔
        ∃ f v, firstPosCann (cannSources coa page db api) f = some (n, v)) ∧
    (∀ (coa page db api : Totals) (f : CannField) (v : ℚ),
      coa f = some v → 0 < v →
      (merge_cannabinoid_data coa page db api).1 f = some v) := by
  refine ⟨?_, ?_, ?_, ?_, ?_, ?_⟩
  · intro coa page db api k
    unfold merge_terpene_data
    by_cases hk : k ∈ (keysOf coa ++ keysOf page ++ keysOf db ++ keysOf api).dedup
    · exact mergeTerpFold_present _ _ ([], []) k hk (List.nodup_dedup _) rfl
    · rw [mergeTerpFold_absent _ _ ([], []) k hk]
      have hnone : firstPosTerp (terpSources coa page db api) k = none := by
        refine firstPosTerp_none_of_all_none _ k ?_
        intro p hp
        refine tdLookup_none_of_not_mem ?_
        rw [List.mem_dedup] at hk
        simp only [terpSources, List.mem_cons, List.not_mem_nil, or_false] at hp
        rcases hp with h | h | h | h <;> subst h <;>
          exact fun hmem => hk (by simp [hmem])
      rw [hnone]
      rfl
  · intro coa page db api n
    unfold merge_terpene_data
    rw [mergeTerpFold_sources]
    simp only [List.not_mem_nil, false_or]
    constructor
    · rintro ⟨k, hk, v, hv⟩
      exact ⟨k, v, hv⟩
    · rintro ⟨k, v, hv⟩
      refine ⟨k, ?_, v, hv⟩
      rw [List.mem_dedup]
      rcases firstPosTerp_mem_keys _ k (n, v) hv with ⟨p, hp, hkmem⟩
      simp only [terpSources, List.mem_cons, List.not_mem_nil, or_false] at hp
      rcases hp with h | h | h | h <;> subst h <;> simp [hkmem]
  · intro coa page db api k v hc hv
    have h1 : firstPosTerp (terpSources coa page db api) k = some ("coa", v) := by
      show (match tdLookup coa k with
        | some w => if 0 < w then some ("coa", w)
            else firstPosTerp [("page", page), ("database", db), ("api", api)] k
        | none => firstPosTerp [("page", page), ("database", db), ("api", api)] k) =
        some ("coa", v)
      rw [hc]
      show (if 0 < v then some ("coa", v)
        else firstPosTerp [("page", page), ("database", db), ("api", api)] k) = some ("coa", v)
      rw [if_pos hv]
    have hk : k ∈ (keysOf coa ++ keysOf page ++ keysOf db ++ keysOf api).dedup := by
      rw [List.mem_dedup]
      simp [tdLookup_some_mem_keys hc]
    unfold merge_terpene_data
    rw [mergeTerpFold_present _ _ ([], []) k hk (List.nodup_dedup _) rfl, h1]
    rfl
  · intro coa page db api f
    unfold merge_cannabinoid_data
    exact mergeCannFold_present _ _ (Totals.mk0, []) f (cannabinoidFields_complete f)
      cannabinoidFields_nodup rfl
  · intro coa page db api n
    unfold merge_cannabinoid_data
    rw [mergeCannFold_sources]
    simp only [List.not_mem_nil, false_or]
    constructor
    · rintro ⟨f, _, v, hv⟩
      exact ⟨f, v, hv⟩
    · rintro ⟨f, v, hv⟩
      exact ⟨f, cannabinoidFields_complete f, v, hv⟩
  · intro coa page db api f v hc hv
    have h1 : firstPosCann (cannSources coa page db api) f = some ("coa", v) := by
      show (match coa f with
        | some w => if 0 < w then some ("coa", w)
            else firstPosCann [("page", page), ("database", db), ("api", api)] f
        | none => firstPosCann [("page", page), ("database", db), ("api", api)] f) =
        some ("coa", v)
      rw [hc]
      show (if 0 < v then some ("coa", v)
        else firstPosCann [("page", page), ("database", db), ("api", api)] f) = some ("coa", v)
      rw [if_pos hv]
    unfold merge_cannabinoid_data
    rw [mergeCannFold_present _ _ (Totals.mk0, []) f (cannabinoidFields_complete f)
      cannabinoidFields_nodup rfl, h1]
    rfl

/-- C2 witness: the coa-priority conjuncts applied at concrete inputs where
coa and page disagree (terpenes: coa myrcene = 1 vs page myrcene = 3;
cannabinoids: coa thc = 2). -/
theorem C2_witness :
    tdLookup (merge_terpene_data [("myrcene", 1)] [("myrcene", 3)] [] []).1 "myrcene" =
      some 1 ∧
    (merge_cannabinoid_data (fun f => if f = CannField.thc then some 2 else none)
      Totals.mk0 Totals.mk0 Totals.mk0).1 CannField.thc = some 2 :=
  ⟨C2_thm.2.2.1 [("myrcene", 1)] [("myrcene", 3)] [] [] "myrcene" 1
      (by simp [tdLookup]) (by norm_num),
   C2_thm.2.2.2.2.2 (fun f => if f = CannField.thc then some 2 else none)
      Totals.mk0 Totals.mk0 Totals.mk0 CannField.thc 2 (by simp) (by norm_num)⟩

/-! ### Helper lemmas for the effects engine (C9) -/

/-- Every `body_weight` in the `TERPENE_EFFECTS` table lies in [0, 1]. -/
lemma terpEffect_body_weight_bounds {n : String} {e : TerpEffect}
    (h : terpEffect? n = some e) : 0 ≤ e.body_weight ∧ e.body_weight ≤ 1 := by
  unfold terpEffect? at h
  rcases hf : TERPENE_EFFECTS.find? (fun kv => kv.1 == n) with _ | kv
  · rw [hf] at h
    simp at h
  · rw [hf] at h
    simp only [Option.map, Option.some.injEq] at h
    subst h
    have hmem := List.mem_of_find?_eq_some hf
    have : ∀ p ∈ TERPENE_EFFECTS, 0 ≤ p.2.body_weight ∧ p.2.body_weight ≤ 1 := by
      intro p hp
      simp only [TERPENE_EFFECTS, List.mem_cons, List.not_mem_nil, or_false] at hp
      rcases hp with h | h | h | h | h | h | h | h | h <;> subst h <;> constructor <;> norm_num
    exact this kv hmem

/-- Invariant of the `_calc_body_mind_balance` accumulation: the weighted
value stays between 0 and the total weight. -/
lemma bmFold_inv :
    ∀ (l : TerpMap) (acc : ℚ × ℚ), 0 ≤ acc.1 → acc.1 ≤ acc.2 →
      0 ≤ (l.foldl
        (fun (acc : ℚ × ℚ) kv =>
          match terpEffect? kv.1 with
          | some e =>
            if (0 : ℚ) < kv.2 then (acc.1 + (1 - e.body_weight) * kv.2, acc.2 + kv.2)
            else acc
          | none => acc) acc).1 ∧
      (l.foldl
        (fun (acc : ℚ × ℚ) kv =>
          match terpEffect? kv.1 with
          | some e =>
            if (0 : ℚ) < kv.2 then (acc.1 + (1 - e.body_weight) * kv.2, acc.2 + kv.2)
            else acc
          | none => acc) acc).1 ≤
      (l.foldl
        (fun (acc : ℚ × ℚ) kv =>
          match terpEffect? kv.1 with
          | some e =>
            if (0 : ℚ) < kv.2 then (acc.1 + (1 - e.body_weight) * kv.2, acc.2 + kv.2)
            else acc
          | none => acc) acc).2 := by
  intro l
  induction l with
  | nil => intro acc h0 h1; exact ⟨h0, h1⟩
  | cons kv rest ih =>
    intro acc h0 h1
    simp only [List.foldl_cons]
    rcases he : terpEffect? kv.1 with _ | e
    · simp only [he]
      exact ih acc h0 h1
    · by_cases hpos : (0 : ℚ) < kv.2
      · rcases terpEffect_body_weight_bounds he with ⟨hb0, hb1⟩
        simp only [he, if_pos hpos]
        refine ih _ ?_ ?_
        · show 0 ≤ acc.1 + (1 - e.body_weight) * kv.2
          have h2 : 0 ≤ (1 - e.body_weight) * kv.2 :=
            mul_nonneg (by linarith) (le_of_lt hpos)
          linarith
        · show acc.1 + (1 - e.body_weight) * kv.2 ≤ acc.2 + kv.2
          have h2 : (1 - e.body_weight) * kv.2 ≤ 1 * kv.2 :=
            mul_le_mul_of_nonneg_right (by linarith) (le_of_lt hpos)
          linarith
      · simp only [he, if_neg hpos]
        exact ih acc h0 h1

/-- `_calc_body_mind_balance` lies in [0, 1]. -/
lemma calc_body_mind_balance_bounds (t : TerpMap) :
    0 ≤ calc_body_mind_balance t ∧ calc_body_mind_balance t ≤ 1 := by
  unfold calc_body_mind_balance
  have hinv := bmFold_inv t (0, 0) le_rfl le_rfl
  by_cases hw : 0 < (bodyMindFold t).2
  · rw [if_pos hw]
    unfold bodyMindFold at hinv ⊢
    constructor
    · exact div_nonneg hinv.1 (le_of_lt hw)
    · rw [div_le_one (by unfold bodyMindFold at hw; exact hw)]
      exact hinv.2
  · rw [if_neg hw]
    norm_num

/-- `_calc_daytime_score` is clamped to [0, 1]. -/
lemma calc_daytime_score_bounds (t : TerpMap) (b : ℚ) :
    0 ≤ calc_daytime_score t b ∧ calc_daytime_score t b ≤ 1 := by
  unfold calc_daytime_score
  constructor
  · exact le_max_left 0 _
  · exact max_le (by norm_num) (min_le_left 1 _)

/-- `round2` maps [0, 1] into [0, 1]. -/
lemma round2_bounds {x : ℚ} (h0 : 0 ≤ x) (h1 : x ≤ 1) :
    0 ≤ round2 x ∧ round2 x ≤ 1 := by
  unfold round2
  constructor
  · apply div_nonneg _ (by norm_num)
    have h : (0 : ℤ) ≤ round ((100 : ℚ) * x) := by
      rw [round_eq]
      apply Int.floor_nonneg.mpr
      linarith
    exact_mod_cast h
  · rw [div_le_one (by norm_num)]
    have h : round ((100 : ℚ) * x) ≤ (100 : ℤ) := by
      rw [round_eq]
      have hle : (100 : ℚ) * x + 1 / 2 ≤ 201 / 2 := by linarith
      calc ⌊(100 : ℚ) * x + 1 / 2⌋ ≤ ⌊(201 : ℚ) / 2⌋ := Int.floor_le_floor hle
        _ = 100 := by norm_num
    exact_mod_cast h

/-- `_collect_best_contexts` returns at most 6 contexts. -/
lemma collect_best_contexts_length (t : TerpMap) :
    (collect_best_contexts t).length ≤ 6 := by
  unfold collect_best_contexts
  simp only [List.length_map, List.length_take]
  exact min_le_left 6 _

/-! ### Claim theorem: C9 (effects engine) -/

/-- C9: `generate_effects_profile` returns the empty profile for every input
whose terpene map is empty or sums to zero, and for every input with a
positive terpene sum it returns a profile with `body_mind_balance ∈ [0,1]`,
`daytime_score ∈ [0,1]`, and at most 6 `best_contexts`. -/
theorem C9_thm :
    (∀ (terpenes : TerpMap) (totals : Totals) (category : Option String),
      terpenes = [] ∨ sumValues terpenes = 0 →
      generate_effects_profile terpenes totals category = none) ∧
    (∀ (terpenes : TerpMap) (totals : Totals) (category : Option String),
      0 < sumValues terpenes →
      ∃ p, generate_effects_profile terpenes totals category = some p ∧
        0 ≤ p.body_mind_balance ∧ p.body_mind_balance ≤ 1 ∧
        0 ≤ p.daytime_score ∧ p.daytime_score ≤ 1 ∧
        p.best_contexts.length ≤ 6) := by
  constructor
  · rintro terpenes totals category (h | h)
    · subst h
      rfl
    · unfold generate_effects_profile
      by_cases he : terpenes = []
      · rw [if_pos he]
      · rw [if_neg he, if_neg (by rw [h]; norm_num)]
  · intro terpenes totals category hpos
    have hne : terpenes ≠ [] := by
      intro he
      subst he
      simp [sumValues] at hpos
    unfold generate_effects_profile
    rw [if_neg hne, if_pos hpos]
    have hbm := calc_body_mind_balance_bounds
      (terpenes.map (fun kv => (kv.1, kv.2 / sumValues terpenes)))
    have hdt := calc_daytime_score_bounds
      (terpenes.map (fun kv => (kv.1, kv.2 / sumValues terpenes)))
      (calc_body_mind_balance (terpenes.map (fun kv => (kv.1, kv.2 / sumValues terpenes))))
    have hrbm := round2_bounds hbm.1 hbm.2
    have hrdt := round2_bounds hdt.1 hdt.2
    exact ⟨_, rfl, hrbm.1, hrbm.2, hrdt.1, hrdt.2,
      collect_best_contexts_length _⟩

/-- C9 witness: both conjuncts applied at concrete inputs — the empty map,
and the singleton myrcene map with sum 1. -/
theorem C9_witness :
    generate_effects_profile [] Totals.mk0 none = none ∧
    (∃ p, generate_effects_profile [("myrcene", 1)] Totals.mk0 none = some p ∧
      0 ≤ p.body_mind_balance ∧ p.body_mind_balance ≤ 1 ∧
      0 ≤ p.daytime_score ∧ p.daytime_score ≤ 1 ∧
      p.best_contexts.length ≤ 6) :=
  ⟨C9_thm.1 [] Totals.mk0 none (Or.inl rfl),
   C9_thm.2 [("myrcene", 1)] Totals.mk0 none
     (by norm_num [sumValues, List.foldl])⟩

end TerpTracker
